import Mathlib

/-!
Verification of the dynamic-schema ETL core (schema factory, extraction
engine, fan-out orchestrator) against its natural-language specification.

The Python sources embedded here are:
  src/etl/schema_factory.py    (parse_arabic_likert_string, _parse_type_string,
                                create_dynamic_model)
  src/etl/generic_analysis.py  (LIKERT_STRING_TO_INT_MAP, _coerce_llm_output,
                                _blank_to_none, analyse_chat_dynamically)
  src/etl/transform_generic.py (_SEM, transform_batch_dynamically)

Modelling conventions, recorded once here and referenced below:
  - JSON values are the inductive JValue.  Python None is jNull, the pandas
    missing value (a float nan coming from read_csv) is jNaN, and datetimes
    are opaque jTime tokens (datetime.utcnow().isoformat() always produces a
    string that pydantic parses back, so the token stands for that pair).
  - Python floats are modelled as exact rationals plus distinguished
    infinite/nan outcomes of float(str).  Binary rounding of decimal
    literals is not modelled; ties at .5 are exactly representable in
    binary, so round-half-to-even behaviour agrees where it matters.
  - Pydantic v2 lax validation is modelled field by field in validateScalar;
    the external email-validator dependency is approximated by emailOk
    (a single at-sign with nonempty sides), and ISO datetime strings are
    subsumed into jTime.
  - pydantic v2 facts used: FieldInfo.annotation strips a top-level
    Annotated wrapper (so a required rating field has annotation Likert),
    but Optional[Annotated[Likert, ...]] keeps the wrapper inside the
    Union, so the membership test in _coerce_llm_output is always false
    there; model field names are not class attributes, so the
    hasattr(DynamicModel, ...) guard of the email rename is always false;
    classes made by create_model are not installed in any namespace that
    model_rebuild consults, so a ForwardRef produced for an unrecognised
    type tag never resolves and model_rebuild raises.
  - The eval fallback of _parse_type_string evaluates a tag with the merged
    TYPE_MAP-and-module-globals mapping as locals and an empty globals
    dict, into which CPython injects the builtins, so every module-global
    and builtin name resolves.  The model tables that whole environment:
    evalKnownTypes lists the names bound to objects pydantic accepts as
    annotations (synthesis then succeeds), evalNonTypes the names bound to
    objects create_model cannot build a core schema for (synthesis then
    raises PydanticSchemaGenerationError), and evalUnmodeled a small
    remainder whose downstream behaviour is not certified here.  Compound
    type expressions (such as subscripted generics, which eval can also
    accept) and the unmodeled names lie outside the scope predicate
    cfgTagsModeled that the C10 characterisation assumes; the plain-name
    fragment it covers is modelled exactly.
-/

namespace Adhlal

/-! ## Python string primitives -/

/-- Characters stripped by the Python str.strip() default (ASCII whitespace;
further Unicode space classes are not modelled). -/
def isPySpace (c : Char) : Bool :=
  c == ' ' || c == '\t' || c == '\n' || c == '\r' || c == '\x0b' || c == '\x0c'

/-- Python str.strip(): drop leading and trailing whitespace. -/
def pyStrip (s : String) : String :=
  String.mk (((s.toList.dropWhile isPySpace).reverse.dropWhile isPySpace).reverse)

/-- ASCII lowercasing of one character (Python str.lower(); the phrase table
keys are ASCII or Arabic, and Arabic has no case, so this is faithful there). -/
def pyLowerChar (c : Char) : Char :=
  if 'A' ≤ c && c ≤ 'Z' then Char.ofNat (c.toNat + 32) else c

/-- Python str.lower() under the restriction documented at pyLowerChar. -/
def pyLower (s : String) : String :=
  String.mk (s.toList.map pyLowerChar)

/-- Test whether the pattern occurs at the head of the character list. -/
def charsHasPfx : List Char → List Char → Bool
  | _, [] => true
  | [], _ :: _ => false
  | c :: cs, p :: ps => c == p && charsHasPfx cs ps

/-- Substring test on character lists (Python str.__contains__). -/
def charsContains (l pat : List Char) : Bool :=
  charsHasPfx l pat ||
    match l with
    | [] => false
    | _ :: cs => charsContains cs pat

/-- Python substring test: pat in s. -/
def strContains (s pat : String) : Bool :=
  charsContains s.toList pat.toList

/-- Fuel-driven worker for strRemoveAll; the fuel is the length of the list,
which bounds the number of steps because every step consumes a character. -/
def charsRemoveAllF : Nat → List Char → List Char → List Char
  | 0, _, _ => []
  | _ + 1, [], _ => []
  | n + 1, c :: cs, pat =>
    if charsHasPfx (c :: cs) pat then
      charsRemoveAllF n ((c :: cs).drop pat.length) pat
    else
      c :: charsRemoveAllF n cs pat

/-- Python s.replace(pat, "") for a nonempty pattern (left-to-right,
non-overlapping removal of every occurrence). -/
def strRemoveAll (s pat : String) : String :=
  String.mk (charsRemoveAllF s.toList.length s.toList pat.toList)

/-- Python str.capitalize(): first character upper-cased, the rest
lower-cased (ASCII restriction as in pyLowerChar). -/
def pyCapitalize (s : String) : String :=
  match s.toList with
  | [] => ""
  | c :: cs =>
    String.mk ((if 'a' ≤ c && c ≤ 'z' then Char.ofNat (c.toNat - 32) else c) :: cs.map pyLowerChar)

/-! ## Python digits and numbers -/

/-- Digits matched by the regex class backslash-d on Python str input:
ASCII digits and Eastern Arabic-Indic digits.  (The real class is all of
Unicode Nd; the further ranges do not occur in this pipeline.) -/
def isPyDigit (c : Char) : Bool :=
  c.isDigit || (0x660 ≤ c.toNat && c.toNat ≤ 0x669)

/-- Numeric value of a Python digit (ASCII or Arabic-Indic). -/
def pyDigitVal (c : Char) : Nat :=
  if c.isDigit then c.toNat - '0'.toNat else c.toNat - 0x660

/-- Value of a digit run, as computed by Python int() on a digit string
(arbitrary precision, Unicode digits accepted). -/
def pyDigitsToNat (l : List Char) : Nat :=
  l.foldl (fun acc c => acc * 10 + pyDigitVal c) 0

/-- First maximal run of Python digits in a string: the regex search for
one-or-more digits used by parse_arabic_likert_string. -/
def findDigitRun (s : String) : Option (List Char) :=
  let rec go : List Char → Option (List Char)
    | [] => none
    | c :: cs => if isPyDigit c then some (c :: cs.takeWhile isPyDigit) else go cs
  go s.toList

/-- Outcome of Python float(): a finite rational, an infinity, or nan. -/
inductive PyFloat where
  | finite (q : ℚ)
  | inf
  | ninf
  | nan
deriving DecidableEq, Repr

/-- Magnitudes at or above two to the power 1024 overflow an IEEE double:
string parsing yields an infinity, int-to-float conversion raises
OverflowError.  (The exact boundary involves the rounding of the 53-bit
mantissa and sits within a relative factor of two to the power -53 of this
value; the difference is not observable by any claim.)  The test is phrased
on numerator and denominator so that it computes by plain reduction. -/
def ratOverflows (q : ℚ) : Bool :=
  decide (2 ^ 1024 * q.den ≤ q.num.natAbs)

/-- The same overflow test for an integer handed to float(). -/
def intOverflows (n : ℤ) : Bool :=
  decide (2 ^ 1024 ≤ n.natAbs)

/-- Assemble the rational value of a decimal literal and classify overflow
and underflow the way float(str) does.  The mantissa and the exponent are
combined into a single normalised fraction so that every step computes by
plain reduction. -/
def mkPyFloat (neg : Bool) (ip fp : List Char) (eNeg : Bool) (ev : Nat) : PyFloat :=
  let dlen := fp.length
  let M : ℕ := pyDigitsToNat ip * 10 ^ dlen + pyDigitsToNat fp
  if M = 0 then .finite (mkRat 0 1)
  else if !eNeg && 400 ≤ ev then (if neg then .ninf else .inf)
  else if eNeg && 400 ≤ ev then .finite (mkRat 0 1)
  else
    let num : ℤ := if neg then -(M : ℤ) else (M : ℤ)
    let q : ℚ := if eNeg then mkRat num (10 ^ dlen * 10 ^ ev) else mkRat (num * 10 ^ ev) (10 ^ dlen)
    if ratOverflows q then (if neg then .ninf else .inf)
    else .finite q

/-- Python float(str) on a trimmed, signless body: decimal literal with an
optional fraction and exponent, or the inf/infinity/nan words.  ASCII
digits only (Unicode digits and underscores are accepted by CPython but do
not occur in this pipeline). -/
def pyFloatBody (neg : Bool) (l : List Char) : Option PyFloat :=
  let low := l.map pyLowerChar
  if low = "inf".toList || low = "infinity".toList then some (if neg then .ninf else .inf)
  else if low = "nan".toList then some .nan
  else
    let ip := l.takeWhile Char.isDigit
    let rest1 := l.drop ip.length
    let (fp, rest2) :=
      match rest1 with
      | '.' :: t => (t.takeWhile Char.isDigit, (t.drop (t.takeWhile Char.isDigit).length))
      | _ => ([], rest1)
    if ip.length + fp.length = 0 then none
    else
      match rest2 with
      | [] => some (mkPyFloat neg ip fp false 0)
      | e :: t =>
        if e == 'e' || e == 'E' then
          let (eNeg, t2) :=
            match t with
            | '+' :: t2 => (false, t2)
            | '-' :: t2 => (true, t2)
            | _ => (false, t)
          let ed := t2.takeWhile Char.isDigit
          if ed.length = 0 || ed.length ≠ t2.length then none
          else some (mkPyFloat neg ip fp eNeg (pyDigitsToNat ed))
        else none

/-- Python float(str): strip whitespace, take an optional sign, then parse
the body. -/
def pyFloatParse (s : String) : Option PyFloat :=
  match (pyStrip s).toList with
  | [] => none
  | '+' :: t => pyFloatBody false t
  | '-' :: t => pyFloatBody true t
  | l => pyFloatBody false l

/-- Floor of a rational as floor division of numerator by denominator (kept
explicit so that every arithmetic step computes by reduction). -/
def ratFloor (q : ℚ) : ℤ :=
  Int.fdiv q.num (q.den : ℤ)

/-- Python round() on a finite float value: round half to even, producing an
integer.  The fractional remainder is compared with one half through the
numerator and denominator, which is the same test phrased without rational
arithmetic. -/
def pyRound (q : ℚ) : ℤ :=
  let f := ratFloor q
  let rn : ℤ := q.num - f * (q.den : ℤ)
  if 2 * rn < (q.den : ℤ) then f
  else if (q.den : ℤ) < 2 * rn then f + 1
  else if f % 2 = 0 then f else f + 1

/-- Clamp an integer into the closed range 1..5, as max(1, min(5, n)). -/
def clamp15 (n : ℤ) : ℤ := max 1 (min 5 n)

/-! ## JSON values and input rows -/

/-- The universe of values flowing through the pipeline: parsed oracle JSON
output, values read from the input rows, and validated instance fields.
jNaN is the pandas missing value; jTime is an opaque extraction timestamp
(see the conventions at the top of the file). -/
inductive JValue where
  | jNull
  | jNaN
  | jBool (b : Bool)
  | jInt (n : ℤ)
  | jFloat (q : ℚ)
  | jStr (s : String)
  | jTime (t : Nat)
  | jObj (o : List (String × JValue))
  | jArr (a : List JValue)

/-- The Python identity test x is None, the only comparison the pipeline
performs on whole values. -/
def JValue.isNone : JValue → Bool
  | .jNull => true
  | _ => false

/-- The Python test d.get(k) is None: true when the key is absent (get
returns None) or bound to None. -/
def getIsNone : Option JValue → Bool
  | none => true
  | some v => v.isNone

/-- First-match association lookup on a JSON object (Python dict access;
dicts produced by json.loads have unique keys). -/
def alookupJ : List (String × JValue) → String → Option JValue
  | [], _ => none
  | (k, v) :: rest, key => if k == key then some v else alookupJ rest key

/-- Key-membership test on a JSON object. -/
def hasKeyJ (o : List (String × JValue)) (k : String) : Bool :=
  (alookupJ o k).isSome

/-- Python dict assignment on the association-list model: replace the first
binding of the key in place, else append a new binding (dicts preserve
insertion order and update in place). -/
def setKeyJ : List (String × JValue) → String → JValue → List (String × JValue)
  | [], key, v => [(key, v)]
  | (k, w) :: rest, key, v =>
    if k == key then (k, v) :: rest else (k, w) :: setKeyJ rest key v

/-- Unique-keys check for a JSON object (json.loads output always has it). -/
def nodupKeysJ : List (String × JValue) → Bool
  | [] => true
  | (k, _) :: rest => !hasKeyJ rest k && nodupKeysJ rest

/-- One input row as the extraction engine sees it (the first row of one
conversation group).  user_email = none models the pandas missing value
(a nan), which is the only non-string content read_csv can put there. -/
structure InputRow where
  chat_id : ℤ
  user_email : Option String

/-- The user_email cell of the row as a value: a string, or the pandas nan. -/
def rowEmailVal (r : InputRow) : JValue :=
  match r.user_email with
  | some e => .jStr e
  | none => .jNaN

/-! ## Record models and schema configuration -/

/-- Scalar field kinds resolvable by the schema factory: the seven TYPE_MAP
entries, Any (which the eval fallback of _parse_type_string resolves from
the typing import of the module), and an opaque kind for every other
environment name that resolves to an annotation pydantic accepts, such as
Dict, BaseModel or a builtin container type.  No claim exercises the
validation rules of those extra annotations, so pOther records only the
resolved name. -/
inductive Scalar where
  | pInt
  | pStr
  | pBool
  | pFloat
  | pDatetime
  | pEmail
  | pLikert
  | pAny
  | pOther (nm : String)
deriving DecidableEq, Repr

/-- A runtime pydantic model, as a sequence of named fields.  opt records
whether the annotation is wrapped in Optional.  A scalar field with
opt = false is declared required (Field(...)); with opt = true it carries
default None.  A nested field always carries a default (None when optional,
an empty dict factory when not).  An fref field holds an unresolved
ForwardRef annotation with default None; createDynamicModel never returns a
model containing one (model_rebuild raises first). -/
inductive RModel where
  | nil
  | scalar (name : String) (ty : Scalar) (opt : Bool) (rest : RModel)
  | nested (name : String) (sub : RModel) (opt : Bool) (rest : RModel)
  | fref (name : String) (ref : String) (opt : Bool) (rest : RModel)
deriving DecidableEq, Repr

/-- The shape of one field, as returned by a model_fields lookup. -/
inductive FieldKind where
  | scalarK (ty : Scalar) (opt : Bool)
  | nestedK (sub : RModel) (opt : Bool)
  | frefK (ref : String) (opt : Bool)
deriving DecidableEq, Repr

/-- First field with the given name (model_fields lookup; the factory never
produces duplicate names because dict keys are unique). -/
def findField : RModel → String → Option FieldKind
  | .nil, _ => none
  | .scalar n ty opt rest, k => if n == k then some (.scalarK ty opt) else findField rest k
  | .nested n sub opt rest, k => if n == k then some (.nestedK sub opt) else findField rest k
  | .fref n r opt rest, k => if n == k then some (.frefK r opt) else findField rest k

/-- Membership of a name in model_fields. -/
def hasField (m : RModel) (k : String) : Bool :=
  (findField m k).isSome

/-- FieldInfo.is_required(): true exactly for a scalar field declared with
Field(...); optional scalars default to None, nested fields always carry a
default factory, fref fields are declared with default None. -/
def fieldIsRequired : FieldKind → Bool
  | .scalarK _ opt => !opt
  | .nestedK _ _ => false
  | .frefK _ _ => false

/-- Field names of a model in declaration order. -/
def fieldNames : RModel → List String
  | .nil => []
  | .scalar n _ _ rest => n :: fieldNames rest
  | .nested n _ _ rest => n :: fieldNames rest
  | .fref n _ _ rest => n :: fieldNames rest

/-- Distinctness of the field names of a model (always true for models the
factory builds, since Python dict keys are unique). -/
def namesNodup : RModel → Bool
  | .nil => true
  | .scalar n _ _ rest => !hasField rest n && namesNodup rest
  | .nested n _ _ rest => !hasField rest n && namesNodup rest
  | .fref n _ _ rest => !hasField rest n && namesNodup rest

/-- A Schema Config tree: each named entry is a type-tag string, a nested
mapping, or some other YAML value (the case create_dynamic_model rejects
with its ValueError). -/
inductive CfgMap where
  | nilC
  | tagField (name : String) (tag : String) (rest : CfgMap)
  | subField (name : String) (sub : CfgMap) (rest : CfgMap)
  | otherField (name : String) (rest : CfgMap)
deriving DecidableEq, Repr

/-! ## Schema factory (schema_factory.py) -/

/-- The TYPE_MAP of schema_factory.py: recognised type-tag strings and the
scalar kinds they resolve to.  The Likert entry is the Annotated wrapper
around the five-point enum with parse_arabic_likert_string as a before
validator; FieldInfo strips the wrapper, so the resolved annotation is the
bare Likert type recorded here. -/
def TYPE_MAP : List (String × Scalar) :=
  [("int", .pInt), ("str", .pStr), ("bool", .pBool), ("float", .pFloat),
   ("datetime", .pDatetime), ("EmailStr", .pEmail), ("Likert", .pLikert)]

/-- Names of the eval environment bound to objects pydantic accepts as
field annotations, so a tag resolving here synthesizes successfully: Any
and Dict from the typing import, BaseModel from the pydantic import, and
the builtin names bound to the schema-supported types (None denotes the
NoneType annotation).  The seven TYPE_MAP tags are matched before the eval
fallback runs and are therefore not repeated here. -/
def evalKnownTypes : List (String × Scalar) :=
  [("Any", .pAny), ("Dict", .pOther "Dict"), ("BaseModel", .pOther "BaseModel"),
   ("None", .pOther "None"), ("list", .pOther "list"), ("dict", .pOther "dict"),
   ("set", .pOther "set"), ("tuple", .pOther "tuple"),
   ("frozenset", .pOther "frozenset"), ("bytes", .pOther "bytes"),
   ("type", .pOther "type")]

/-- Names of the eval environment bound to objects that are no usable
annotation, so the eval succeeds but the later create_model call raises
PydanticSchemaGenerationError: the module-level imports and helpers of
schema_factory.py that are not types (the yaml module, Field, create_model,
the module functions, the TYPE_MAP dict, the future-import feature record
and the module dunders), and every builtin that is neither a supported type
nor excluded below: builtin functions, the keyword constants, the site
banner objects, the exception and warning classes, and the builtin classes
pydantic has no schema for. -/
def evalNonTypes : List String :=
  ["ArithmeticError", "AssertionError", "AttributeError", "BaseException",
   "BaseExceptionGroup", "BlockingIOError", "BrokenPipeError", "BufferError",
   "BytesWarning", "ChildProcessError", "ConnectionAbortedError", "ConnectionError",
   "ConnectionRefusedError", "ConnectionResetError", "DeprecationWarning", "EOFError",
   "Ellipsis", "EncodingWarning", "EnvironmentError", "Exception",
   "ExceptionGroup", "False", "Field", "FileExistsError",
   "FileNotFoundError", "FloatingPointError", "FutureWarning", "GeneratorExit",
   "IOError", "ImportError", "ImportWarning", "IndentationError",
   "IndexError", "InterruptedError", "IsADirectoryError", "KeyError",
   "KeyboardInterrupt", "LookupError", "MemoryError", "ModuleNotFoundError",
   "NameError", "NotADirectoryError", "NotImplemented", "NotImplementedError",
   "OSError", "OverflowError", "PendingDeprecationWarning", "PermissionError",
   "ProcessLookupError", "RecursionError", "ReferenceError", "ResourceWarning",
   "RuntimeError", "RuntimeWarning", "StopAsyncIteration", "StopIteration",
   "SyntaxError", "SyntaxWarning", "SystemError", "SystemExit",
   "TYPE_MAP", "TabError", "TimeoutError", "True",
   "TypeError", "UnboundLocalError", "UnicodeDecodeError", "UnicodeEncodeError",
   "UnicodeError", "UnicodeTranslateError", "UnicodeWarning", "UserWarning",
   "ValueError", "Warning", "ZeroDivisionError", "__build_class__",
   "__builtins__", "__cached__", "__debug__", "__doc__",
   "__file__", "__import__", "__loader__", "__name__",
   "__package__", "__spec__", "_parse_type_string", "abs",
   "aiter", "all", "anext", "annotations",
   "any", "ascii", "bin", "breakpoint",
   "callable", "chr", "classmethod", "compile",
   "copyright", "create_dynamic_model", "create_model", "credits",
   "delattr", "dir", "divmod", "enumerate",
   "eval", "exec", "exit", "filter",
   "format", "generate_schema_example", "getattr", "globals",
   "hasattr", "hash", "help", "hex",
   "id", "input", "isinstance", "issubclass",
   "iter", "len", "license", "load_config_and_create_model",
   "locals", "map", "max", "min",
   "next", "oct", "open", "ord",
   "parse_arabic_likert_string", "pow", "print", "property",
   "quit", "range", "repr", "reversed",
   "round", "setattr", "slice", "sorted",
   "staticmethod", "sum", "super", "vars",
   "yaml", "zip"]

/-- Names of the eval environment whose downstream create_model behaviour
is not certified by this development (bare typing special forms, pydantic
helper classes, and a few builtin types whose schema support varies):
configs using one of these as a tag are outside the scope of the C10
characterisation.  The embedding itself routes them through the ForwardRef
branch, an arbitrary choice the scope predicate makes irrelevant. -/
def evalUnmodeled : List String :=
  ["Annotated", "BeforeValidator", "FieldInfo", "ForwardRef", "Optional",
   "Type", "Union", "bytearray", "complex", "memoryview", "object"]

/-- First-match lookup in a string-keyed table. -/
def alookupS {α : Type} : List (String × α) → String → Option α
  | [], _ => none
  | (k, v) :: rest, key => if k == key then some v else alookupS rest key

/-- Result of _parse_type_string: a resolved scalar annotation (with the
Optional flag), a name that resolved to a non-annotatable object (so the
later create_model call raises), or a ForwardRef carrying the parent-model
prefixed name. -/
inductive ParsedType where
  | scalarT (ty : Scalar) (opt : Bool)
  | badT (nm : String)
  | frefT (ref : String) (opt : Bool)
deriving DecidableEq, Repr

/-- _parse_type_string: strip the tag, detect and remove the vertical-bar
None suffix, look the remainder up in TYPE_MAP, fall back to the eval
environment (a supported-annotation name resolves, a non-type name leads to
the later create_model failure), and otherwise produce a ForwardRef keyed
by the prefixed name.  (Tags that CPython would reject with a SyntaxError
inside eval land in the ForwardRef case here; both paths make creation
fail, the real one at parse time through the ValueError re-raise, the
modelled one at rebuild time.)  Here first the detection of the optionality
suffix. -/
def tagIsOpt (s : String) : Bool :=
  strContains (pyStrip s) "| None"

/-- The tag with the optionality suffix removed: strip, then drop every
occurrence of the vertical-bar None marker and strip again when the marker
was present. -/
def stripTag (s : String) : String :=
  let t := pyStrip s
  if strContains t "| None" then pyStrip (strRemoveAll t "| None") else t

def parseTypeString (pfx : String) (s : String) : ParsedType :=
  match alookupS TYPE_MAP (stripTag s) with
  | some sc => .scalarT sc (tagIsOpt s)
  | none =>
    match alookupS evalKnownTypes (stripTag s) with
    | some sc => .scalarT sc (tagIsOpt s)
    | none =>
      if evalNonTypes.contains (stripTag s) then .badT (stripTag s)
      else .frefT (pfx ++ stripTag s) (tagIsOpt s)

/-- Test for the vertical-bar None marker inside the Python str() rendering
of a config entry.  For a tag the rendering is the tag itself; for a nested
mapping the rendering is the dict repr, which contains every inner key and
value, recursively. -/
def entryNoneMarker : CfgMap → Bool
  | .nilC => false
  | .tagField n s rest => strContains n "| None" || strContains s "| None" || entryNoneMarker rest
  | .subField n sub rest => strContains n "| None" || entryNoneMarker sub || entryNoneMarker rest
  | .otherField n rest => strContains n "| None" || entryNoneMarker rest

/-- The nested-optionality heuristic of create_dynamic_model: a nested field
is optional when the config mapping is empty (the explicit else True) or
every one of its values renders with the vertical-bar None marker somewhere
in its str().  (An all-quantifier over an empty mapping is also true, so
one recursion covers both.)  Values that are neither tags nor mappings
contribute false; their str() is a scalar repr that cannot contain the
marker. -/
def nestedOptional : CfgMap → Bool
  | .nilC => true
  | .tagField _ s rest => strContains s "| None" && nestedOptional rest
  | .subField _ sub rest => entryNoneMarker sub && nestedOptional rest
  | .otherField _ _ => false

/-- Does the model contain an unresolved ForwardRef field anywhere?  This is
what makes model_rebuild(force=True) raise PydanticUndefinedAnnotation,
since the dynamically created classes are not installed in any namespace
the rebuild consults. -/
def hasFref : RModel → Bool
  | .nil => false
  | .scalar _ _ _ rest => hasFref rest
  | .nested _ sub _ rest => hasFref sub || hasFref rest
  | .fref _ _ _ _ => true

/-- The field-building loop of create_dynamic_model.  Nested mappings are
created recursively (their own rebuild happens inside the recursive call,
so an unresolved reference inside a nested model raises there); entries
that are neither strings nor mappings raise the ValueError of the final
else branch.  A tag that evaluated to a non-annotatable object makes the
later create_model call raise; the model raises at the field instead, which
changes only which exception escapes first, never whether one does. -/
def createFields (mn : String) : CfgMap → Except String RModel
  | .nilC => .ok .nil
  | .tagField n s rest =>
    match parseTypeString (mn ++ "_") s with
    | .scalarT sc opt =>
      match createFields mn rest with
      | .error e => .error e
      | .ok r => .ok (.scalar n sc opt r)
    | .badT nm =>
      .error ("PydanticSchemaGenerationError for " ++ nm)
    | .frefT ref opt =>
      match createFields mn rest with
      | .error e => .error e
      | .ok r => .ok (.fref n ref opt r)
  | .subField n sub rest =>
    match createFields (mn ++ "_" ++ pyCapitalize n) sub with
    | .error e => .error e
    | .ok subM =>
      if hasFref subM then
        .error "PydanticUndefinedAnnotation in nested model_rebuild"
      else
        match createFields mn rest with
        | .error e => .error e
        | .ok r => .ok (.nested n subM (nestedOptional sub) r)
  | .otherField n _ =>
    .error ("Invalid schema config for field " ++ n ++ ". Expected type string or dict.")

/-- create_dynamic_model: build the fields, then rebuild the model, which
raises if any ForwardRef field is still unresolved. -/
def createDynamicModel (mn : String) (cfg : CfgMap) : Except String RModel :=
  match createFields mn cfg with
  | .error e => .error e
  | .ok m => if hasFref m then .error "PydanticUndefinedAnnotation in model_rebuild" else .ok m

/-- Structural equality of two runtime models: same field names, same
resolved types, same optionality, recursively through nested sub-records.
This is the comparison the determinism invariant of the spec speaks about
(two create_model calls return distinct class objects, so object identity
is not the right notion). -/
def structEq : RModel → RModel → Bool
  | .nil, .nil => true
  | .scalar n t o r, .scalar n2 t2 o2 r2 => n == n2 && t == t2 && o == o2 && structEq r r2
  | .nested n s o r, .nested n2 s2 o2 r2 => n == n2 && structEq s s2 && o == o2 && structEq r r2
  | .fref n f o r, .fref n2 f2 o2 r2 => n == n2 && f == f2 && o == o2 && structEq r r2
  | _, _ => false

/-- Does a type tag resolve (TYPE_MAP or the modelled eval environment)?
The prefix only enters the ForwardRef name, never the resolution outcome. -/
def tagResolves (s : String) : Bool :=
  match parseTypeString "" s with
  | .scalarT _ _ => true
  | .badT _ => false
  | .frefT _ _ => false

/-- The configs on which creation succeeds: every entry is a resolvable tag
or a nested mapping of the same shape. -/
def cfgResolvable : CfgMap → Bool
  | .nilC => true
  | .tagField _ s rest => tagResolves s && cfgResolvable rest
  | .subField _ sub rest => cfgResolvable sub && cfgResolvable rest
  | .otherField _ _ => false

/-- Well-formedness in the sense of the specification: every entry is a
recognised type-tag string (optionally with the vertical-bar None suffix)
or a nested mapping.  This is cfgResolvable restricted to TYPE_MAP, without
the eval fallback. -/
def cfgWellFormed : CfgMap → Bool
  | .nilC => true
  | .tagField _ s rest => (alookupS TYPE_MAP (stripTag s)).isSome && cfgWellFormed rest
  | .subField _ sub rest => cfgWellFormed sub && cfgWellFormed rest
  | .otherField _ _ => false

/-- A character a plain-name tag may consist of (ASCII letters, digits and
the underscore). -/
def isPlainNameChar (c : Char) : Bool :=
  c.isAlpha || c.isDigit || c == '_'

/-- A nonempty tag of plain-name characters.  On this fragment the eval of
_parse_type_string is a bare name lookup, settled exactly by the
environment tables (a name in none of them raises NameError); outside it
eval can evaluate compound type expressions, which the model does not
follow. -/
def isPlainName (s : String) : Bool :=
  !s.isEmpty && s.toList.all isPlainNameChar

/-- The tags whose synthesis outcome the model certifies: a plain name
(after stripping the optionality suffix) that is not one of the few
environment names the tables leave unmodeled. -/
def tagModeled (s : String) : Bool :=
  isPlainName (stripTag s) && !evalUnmodeled.contains (stripTag s)

/-- Scope of the failure characterisation: every tag of the config, at
every nesting depth, is a modeled plain name.  Entries that are neither
strings nor mappings need no tag condition (they fail outright). -/
def cfgTagsModeled : CfgMap → Bool
  | .nilC => true
  | .tagField _ s rest => tagModeled s && cfgTagsModeled rest
  | .subField _ sub rest => cfgTagsModeled sub && cfgTagsModeled rest
  | .otherField _ rest => cfgTagsModeled rest

/-! ## Rating coercion (generic_analysis.py and the Likert before-validator) -/

/-- LIKERT_STRING_TO_INT_MAP of generic_analysis.py, verbatim: English and
Arabic satisfaction phrases and the numeral tokens one to five. -/
def LIKERT_STRING_TO_INT_MAP : List (String × ℤ) :=
  [("not satisfied at all", 1),
   ("somewhat dissatisfied", 2),
   ("very_dissatisfied", 1),
   ("disagree", 2),
   ("neutral", 3),
   ("satisfied", 4),
   ("agree", 4),
   ("very satisfied", 5),
   ("very_satisfied", 5),
   ("weak", 2),
   ("poor", 2),
   ("very_poor", 1),
   ("fair", 3),
   ("very_good", 5),
   ("very_bad", 1),
   ("غير راضٍ على الإطلاق", 1),
   ("غير راض", 2),
   ("محايد", 3),
   ("راضٍ", 4),
   ("راضٍ جدًا", 5),
   ("نوعا ما نعم", 4),
   ("ضعيف", 2),
   ("1", 1),
   ("2", 2),
   ("3", 3),
   ("4", 4),
   ("5", 5)]

/-- Exceptions that escape the modelled code.  OverflowError is the one the
rating branch does not catch (its handlers name ValueError and TypeError
only). -/
inductive PyErr where
  | overflowError
deriving DecidableEq, Repr

/-- _blank_to_none(x) in the leaf case (field_info absent, or an annotation
without model_fields): a blank or whitespace-only string becomes None,
everything else is returned unchanged. -/
def blankLeaf (v : JValue) : JValue :=
  match v with
  | .jStr s => if pyStrip s == "" then .jNull else v
  | _ => v

/-- _blank_to_none(x, field_info) where field_info is the model field named
k.  The dict recursion fires only when the annotation itself has
model_fields, i.e. for a required nested field whose annotation is the bare
generated class; an optional nested field has a Union annotation, which has
no model_fields attribute, so its dict passes through untouched.  Children
are processed with the nested model_fields lookup of their own key (absent
keys recurse with no field_info, where only the string case applies). -/
def blankToNone : RModel → String → JValue → JValue
  | .nil, _, v => blankLeaf v
  | .scalar n _ _ rest, k, v => if n == k then blankLeaf v else blankToNone rest k v
  | .fref n _ _ rest, k, v => if n == k then blankLeaf v else blankToNone rest k v
  | .nested n sub opt rest, k, v =>
    if n == k then
      match v with
      | .jStr s => if pyStrip s == "" then .jNull else v
      | .jObj o => if opt then v else .jObj (o.map (fun kv => (kv.1, blankToNone sub kv.1 kv.2)))
      | _ => v
    else blankToNone rest k v

/-- Is the field named k a required rating field?  The source tests
annotation == Likert, which holds exactly when the field was declared with
the bare Annotated rating type (FieldInfo strips the wrapper).  The
optional-rating test (Likert in the Union arguments) is always false,
because the Union argument is the Annotated wrapper, never bare Likert, so
only required rating fields take the branch. -/
def isDirectLikert (m : RModel) (k : String) : Bool :=
  match findField m k with
  | some (.scalarK .pLikert false) => true
  | _ => false

/-- The rating branch of _coerce_llm_output for one value of a required
rating field.  Strings: phrase-table lookup on the stripped lower-cased
text, then float() on the original text with round and the closed-range
test; a parse to an infinity makes round raise OverflowError, which the
ValueError handler does not catch.  Numbers: round and range-test, where
float() of an out-of-range huge integer also raises OverflowError
(uncaught, the handler there names ValueError and TypeError).  True is
numeric in Python and rounds to 1.  Anything not accepted falls through to
_blank_to_none with the field info. -/
def likertCoerce (m : RModel) (k : String) (v : JValue) : Except PyErr JValue :=
  match v with
  | .jStr s =>
    match alookupS LIKERT_STRING_TO_INT_MAP (pyLower (pyStrip s)) with
    | some mv => .ok (.jInt mv)
    | none =>
      match pyFloatParse s with
      | some (.finite q) =>
        let n := pyRound q
        if 1 ≤ n ∧ n ≤ 5 then .ok (.jInt n) else .ok (blankToNone m k v)
      | some .inf => .error .overflowError
      | some .ninf => .error .overflowError
      | some .nan => .ok (blankToNone m k v)
      | none => .ok (blankToNone m k v)
  | .jInt n =>
    if intOverflows n then .error .overflowError
    else if 1 ≤ n ∧ n ≤ 5 then .ok (.jInt n) else .ok (blankToNone m k v)
  | .jFloat q =>
    let n := pyRound q
    if 1 ≤ n ∧ n ≤ 5 then .ok (.jInt n) else .ok (blankToNone m k v)
  | .jBool b => if b then .ok (.jInt 1) else .ok (blankToNone m k v)
  | .jNaN => .ok (blankToNone m k v)
  | _ => .ok (blankToNone m k v)

/-- parse_arabic_likert_string of schema_factory.py, the before-validator on
every rating field.  Floats are rounded and clamped into 1..5 (a nan makes
round raise ValueError, which pydantic records as a validation failure:
the none outcome); strings containing a digit run have that run parsed and
clamped; everything else is returned unchanged for the enum validation to
judge. -/
def parseArabicLikertString (v : JValue) : Option JValue :=
  match v with
  | .jFloat q => some (.jInt (clamp15 (pyRound q)))
  | .jNaN => none
  | .jStr s =>
    match findDigitRun s with
    | some ds => some (.jInt (clamp15 (pyDigitsToNat ds)))
    | none => some v
  | _ => some v

/-- A one-field model with a required rating field named r: the canonical
carrier for statements about the rating pipeline on its own. -/
def ratingFieldModel : RModel := .scalar "r" .pLikert false .nil

/-- The two coercion stages a raw value of a required rating field passes
before the enum test: the branch of _coerce_llm_output, then the
before-validator. -/
def ratingStages (v : JValue) : Except PyErr (Option JValue) :=
  (likertCoerce ratingFieldModel "r" v).map parseArabicLikertString

/-! ## Pydantic v2 lax validation (modelled) -/

/-- Lax string-to-integer conversion: trimmed optional sign and ASCII
digits. -/
def parseIntStr (s : String) : Option ℤ :=
  match (pyStrip s).toList with
  | [] => none
  | '+' :: t => if t ≠ [] ∧ t.all Char.isDigit then some (pyDigitsToNat t) else none
  | '-' :: t => if t ≠ [] ∧ t.all Char.isDigit then some (-(pyDigitsToNat t : ℤ)) else none
  | l => if l.all Char.isDigit then some (pyDigitsToNat l) else none

/-- Lax string-to-bool table of pydantic (lower-cased, trimmed). -/
def boolStrVal (s : String) : Option Bool :=
  let t := pyLower (pyStrip s)
  if t == "true" || t == "t" || t == "yes" || t == "y" || t == "on" || t == "1" then some true
  else if t == "false" || t == "f" || t == "no" || t == "n" || t == "off" || t == "0" then some false
  else none

/-- Modelled external email validation (the EmailStr dependency): one
at-sign with nonempty sides and no whitespace.  The real validator is
stricter; every concrete email below satisfies both. -/
def emailOk (s : String) : Bool :=
  let l := s.toList
  (l.count '@' == 1) &&
    (match l.splitOn '@' with
     | [a, b] => !a.isEmpty && !b.isEmpty && !(l.any isPySpace)
     | _ => false)

/-- Validation of one value against one scalar annotation, returning the
coerced instance value on success (pydantic v2 lax mode for the kinds the
factory produces; deviations are noted in the conventions at the top).
The rating case runs the before-validator, then the int-enum membership
test, under which Python True equals 1.  The pOther kinds stand for
annotations no claim validates a value against; their rule here (accept
unchanged, like Any) is a placeholder the theorems never exercise. -/
def validateScalar : Scalar → JValue → Option JValue
  | .pAny, v => some v
  | .pOther _, v => some v
  | .pInt, .jInt n => some (.jInt n)
  | .pInt, .jFloat q => if q.den = 1 then some (.jInt q.num) else none
  | .pInt, .jStr s => (parseIntStr s).map .jInt
  | .pInt, _ => none
  | .pStr, .jStr s => some (.jStr s)
  | .pStr, _ => none
  | .pBool, .jBool b => some (.jBool b)
  | .pBool, .jInt n => if n = 0 then some (.jBool false) else if n = 1 then some (.jBool true) else none
  | .pBool, .jFloat q => if q = 0 then some (.jBool false) else if q = 1 then some (.jBool true) else none
  | .pBool, .jStr s => (boolStrVal s).map .jBool
  | .pBool, _ => none
  | .pFloat, .jFloat q => some (.jFloat q)
  | .pFloat, .jInt n => some (.jFloat n)
  | .pFloat, .jNaN => some .jNaN
  | .pFloat, .jStr s =>
    match pyFloatParse s with
    | some (.finite q) => some (.jFloat q)
    | _ => none
  | .pFloat, _ => none
  | .pDatetime, .jTime t => some (.jTime t)
  | .pDatetime, _ => none
  | .pEmail, .jStr s => if emailOk s then some (.jStr s) else none
  | .pEmail, _ => none
  | .pLikert, v =>
    match parseArabicLikertString v with
    | none => none
    | some (.jInt n) => if 1 ≤ n ∧ n ≤ 5 then some (.jInt n) else none
    | some (.jBool b) => if b then some (.jInt 1) else none
    | some _ => none

/-- Validation of one scalar field given the looked-up value: a missing
optional field takes its None default, a missing required field fails, an
explicit None is accepted exactly for an Optional annotation, and any other
value goes through the scalar conversion. -/
def validateScalarField (sc : Scalar) (opt : Bool) : Option JValue → Option JValue
  | none => if opt then some .jNull else none
  | some v => if opt && v.isNone then some .jNull else validateScalar sc v

/-- model_validate against a generated model: fields are checked in
declaration order; keys of the data absent from the model are ignored
(the default extra behaviour); a missing required nested field takes its
empty-dict default factory and that dict is validated against the nested
model.  The result is the instance as an association list in field order.
An fref field never occurs in a model the factory returns; the modelled
behaviour (None accepted, everything else rejected) is unreachable. -/
def validateFields : RModel → List (String × JValue) → Option (List (String × JValue))
  | .nil, _ => some []
  | .scalar n sc opt rest, o =>
    match validateScalarField sc opt (alookupJ o n) with
    | none => none
    | some w => (validateFields rest o).map (fun r => (n, w) :: r)
  | .fref n _ _ rest, o =>
    match alookupJ o n with
    | none => (validateFields rest o).map (fun r => (n, JValue.jNull) :: r)
    | some v =>
      if v.isNone then (validateFields rest o).map (fun r => (n, JValue.jNull) :: r)
      else none
  | .nested n sub opt rest, o =>
    match alookupJ o n with
    | none =>
      if opt then (validateFields rest o).map (fun r => (n, JValue.jNull) :: r)
      else
        match validateFields sub [] with
        | none => none
        | some io => (validateFields rest o).map (fun r => (n, JValue.jObj io) :: r)
    | some .jNull =>
      if opt then (validateFields rest o).map (fun r => (n, JValue.jNull) :: r) else none
    | some (.jObj inner) =>
      match validateFields sub inner with
      | none => none
      | some io => (validateFields rest o).map (fun r => (n, JValue.jObj io) :: r)
    | some _ => none

/-! ## Coercion pass (_coerce_llm_output) -/

/-- Python str() restricted to the scalar values that can reach the
graduation-year and phone repairs.  Non-integral float reprs and container
reprs are approximated (noted in the conventions; no claim exercises
them). -/
def pyStr : JValue → String
  | .jStr s => s
  | .jInt n => toString n
  | .jBool b => if b then "True" else "False"
  | .jNull => "None"
  | .jNaN => "nan"
  | .jFloat q => if q.den = 1 then toString q.num ++ ".0" else toString q.num ++ "/" ++ toString q.den
  | .jTime t => toString t
  | .jObj _ => ""
  | .jArr _ => ""

/-- Translate Eastern Arabic-Indic digits to ASCII digits (the maketrans
table of the graduation-year repair). -/
def eastToWestChar (c : Char) : Char :=
  if 0x660 ≤ c.toNat && c.toNat ≤ 0x669 then Char.ofNat ('0'.toNat + (c.toNat - 0x660)) else c

/-- The graduation-year repair inside the education branch: render the
value with str(), translate Arabic-Indic digits, strip every non-ASCII
digit, and re-parse; an empty remainder (or, in the source, a ValueError
or TypeError) turns the year into None.  A digit string so large that
float() overflows makes the uncaught OverflowError escape. -/
def eduYearFix (o : List (String × JValue)) : Except PyErr (List (String × JValue)) :=
  match alookupJ o "graduation_year" with
  | none => .ok o
  | some gy =>
    if gy.isNone then .ok o
    else
      let cleaned := ((pyStr gy).toList.map eastToWestChar).filter Char.isDigit
      if cleaned.isEmpty then .ok (setKeyJ o "graduation_year" .jNull)
      else if intOverflows (pyDigitsToNat cleaned) then .error .overflowError
      else .ok (setKeyJ o "graduation_year" (.jInt (pyDigitsToNat cleaned)))

/-- The phone repair inside the contact_info branch: a list-valued phone
collapses to str() of its first element, an empty list to None, anything
else is untouched. -/
def contactPhoneFix (o : List (String × JValue)) : List (String × JValue) :=
  match alookupJ o "phone" with
  | some (.jArr (x :: _)) => setKeyJ o "phone" (.jStr (pyStr x))
  | some (.jArr []) => setKeyJ o "phone" .jNull
  | _ => o

/-- Coercion of one key/value pair that survives the model-membership test:
the required-rating branch, the education branch (guarded on a dict value
carrying a graduation_year key), the contact_info branch (guarded on a dict
value carrying a phone key), and otherwise the blank-to-None conversion
with the field info.  The email-to-user_email rename of the source is dead
code in pydantic v2 (hasattr on the class is false for fields) and is
therefore absent here. -/
def coerceEntry (m : RModel) (k : String) (v : JValue) : Except PyErr JValue :=
  if isDirectLikert m k then likertCoerce m k v
  else if k == "education" then
    match v with
    | .jObj o =>
      if hasKeyJ o "graduation_year" then
        (eduYearFix o).map (fun o2 => blankToNone m k (.jObj o2))
      else .ok (blankToNone m k v)
    | _ => .ok (blankToNone m k v)
  else if k == "contact_info" then
    match v with
    | .jObj o =>
      if hasKeyJ o "phone" then .ok (blankToNone m k (.jObj (contactPhoneFix o)))
      else .ok (blankToNone m k v)
    | _ => .ok (blankToNone m k v)
  else .ok (blankToNone m k v)

/-- _coerce_llm_output: walk the parsed oracle object in order, keep exactly
the keys that are model fields (over-generated keys are silently dropped),
and coerce each kept value. -/
def coerceLlmOutput (m : RModel) : List (String × JValue) → Except PyErr (List (String × JValue))
  | [] => .ok []
  | (k, v) :: rest =>
    if hasField m k then
      match coerceEntry m k v with
      | .error e => .error e
      | .ok w =>
        match coerceLlmOutput m rest with
        | .error e => .error e
        | .ok r => .ok ((k, w) :: r)
    else coerceLlmOutput m rest

/-! ## Identifier backfill and the degradation ladder (analyse_chat_dynamically) -/

/-- The documented subject-identifier placeholder. -/
def EMAIL_PLACEHOLDER : String := "unknown@example.com"

/-- The user_email backfill shared by tier 1 and tier 2: when the key is
absent or None, take the row value if pandas reports it present; otherwise,
if the model declares user_email as a required field and the current value
is still None, install the placeholder. -/
def backfillUserEmail (m : RModel) (row : InputRow) (d : List (String × JValue)) : List (String × JValue) :=
  if !hasKeyJ d "user_email" || getIsNone (alookupJ d "user_email") then
    match row.user_email with
    | some e => setKeyJ d "user_email" (.jStr e)
    | none =>
      match findField m "user_email" with
      | some fk =>
        if fieldIsRequired fk then
          if getIsNone (alookupJ d "user_email") then
            setKeyJ d "user_email" (.jStr EMAIL_PLACEHOLDER)
          else d
        else d
      | none => d
  else d

/-- The extraction-timestamp overwrite: whenever the model declares
extracted_at, force it to the current time, whatever the oracle said. -/
def setExtractedAt (m : RModel) (now : Nat) (d : List (String × JValue)) : List (String × JValue) :=
  if hasField m "extracted_at" then setKeyJ d "extracted_at" (.jTime now) else d

/-- Tier-1 data: the coerced payload, with chat_id taken from the input row
only when the oracle did not supply one (the input frame always carries the
chat_id column it was grouped on), then the email backfill and the
timestamp overwrite. -/
def tier1Data (m : RModel) (row : InputRow) (now : Nat) (coerced : List (String × JValue)) : List (String × JValue) :=
  let d := if !hasKeyJ coerced "chat_id" then setKeyJ coerced "chat_id" (.jInt row.chat_id) else coerced
  setExtractedAt m now (backfillUserEmail m row d)

/-- Tier-2 data: restrict the tier-1 data to keys the model declares, then
redo the chat_id backfill, the email backfill, and the timestamp
overwrite. -/
def tier2Data (m : RModel) (row : InputRow) (now : Nat) (d1 : List (String × JValue)) : List (String × JValue) :=
  let d := d1.filter (fun kv => hasField m kv.1)
  let d := if !hasKeyJ d "chat_id" then setKeyJ d "chat_id" (.jInt row.chat_id) else d
  setExtractedAt m now (backfillUserEmail m row d)

/-- The loop body of the minimal-record construction: walk the declared
field names in order and bind each still-absent one to None. -/
def addMissingLoop : List String → List (String × JValue) → List (String × JValue)
  | [], d => d
  | n :: rest, d => addMissingLoop rest (if hasKeyJ d n then d else d ++ [(n, .jNull)])

/-- Append a None binding for every declared field still absent, in field
order (the final loop of the minimal-record construction). -/
def addMissingNulls (m : RModel) (d : List (String × JValue)) : List (String × JValue) :=
  addMissingLoop (fieldNames m) d

/-- The tier-3 minimal record: chat_id and user_email raw from the input
row, the placeholder adjustment (whose guard compares against None, which a
pandas missing value never is, so the branch is dead on data coming through
read_csv — translated faithfully nonetheless), the timestamp overwrite, and
a None for every other declared field. -/
def minimalData (m : RModel) (row : InputRow) (now : Nat) : List (String × JValue) :=
  let d : List (String × JValue) := [("chat_id", .jInt row.chat_id), ("user_email", rowEmailVal row)]
  let d :=
    if getIsNone (alookupJ d "user_email") then
      match findField m "user_email" with
      | some fk =>
        if fieldIsRequired fk then setKeyJ d "user_email" (.jStr EMAIL_PLACEHOLDER)
        else setKeyJ d "user_email" .jNull
      | none => setKeyJ d "user_email" (.jStr EMAIL_PLACEHOLDER)
    else d
  addMissingNulls m (setExtractedAt m now d)

/-- How one conversation can fail: an exception the coercion pass does not
catch, or the final model_validate of the minimal record raising out of the
function (every validation error of tiers 1 and 2 is caught and absorbed by
the next tier). -/
inductive AnalyseErr where
  | pyRaise (e : PyErr)
  | ladderFailure
deriving DecidableEq, Repr

/-- The post-oracle part of analyse_chat_dynamically: coerce the parsed
oracle payload, then run the three-tier validation ladder.  Prompt
rendering and the oracle call sit upstream of this function and are out of
scope of the claims about the ladder. -/
def analyse (m : RModel) (row : InputRow) (now : Nat) (raw : List (String × JValue)) : Except AnalyseErr (List (String × JValue)) :=
  match coerceLlmOutput m raw with
  | .error e => .error (.pyRaise e)
  | .ok coerced =>
    let d1 := tier1Data m row now coerced
    match validateFields m d1 with
    | some inst => .ok inst
    | none =>
      match validateFields m (tier2Data m row now d1) with
      | some inst => .ok inst
      | none =>
        match validateFields m (minimalData m row now) with
        | some inst => .ok inst
        | none => .error .ladderFailure

/-! ## Fan-out orchestrator (transform_batch_dynamically) -/

/-- Phases of one per-conversation task under the cooperative scheduler:
created by the comprehension but not yet started, started and blocked on
the admission gate, holding the gate with the oracle call outstanding, and
finished with its result recorded.  The extraction work of a task with
payload a produces f a for the fixed per-group function f; which concrete
value that is plays no role in the scheduling model. -/
inductive TaskPhase (α β : Type) where
  | pending (a : α)
  | waiting (a : α)
  | running (a : α)
  | done (a : α) (r : β)

/-- The orchestrator state: the task list indexed by submission order (the
order of the comprehension over the groupby, which asyncio.gather preserves
positionally) and the free-permit count of the admission gate _SEM. -/
structure BatchState (α β : Type) where
  tasks : List (TaskPhase α β)
  sem : Nat

/-- One scheduler transition.  The gate is acquired (one permit consumed)
strictly before a task may hold the oracle call outstanding, and the permit
is returned exactly when the call region is left, on success and on failure
alike (the async-with block of _run releases on either exit). -/
inductive BatchStep {α β : Type} (f : α → β) : BatchState α β → BatchState α β → Prop where
  | start (l r : List (TaskPhase α β)) (a : α) (s : Nat) :
    BatchStep f ⟨l ++ .pending a :: r, s⟩ ⟨l ++ .waiting a :: r, s⟩
  | acquire (l r : List (TaskPhase α β)) (a : α) (s : Nat) :
    BatchStep f ⟨l ++ .waiting a :: r, s + 1⟩ ⟨l ++ .running a :: r, s⟩
  | finish (l r : List (TaskPhase α β)) (a : α) (s : Nat) :
    BatchStep f ⟨l ++ .running a :: r, s⟩ ⟨l ++ .done a (f a) :: r, s + 1⟩

/-- The initial state: every task pending, the gate holding its full bound
(MAX_CONCURRENT_REQUESTS permits). -/
def initBatch {α β : Type} (ts : List α) (n : Nat) : BatchState α β :=
  ⟨ts.map .pending, n⟩

/-- Is the oracle call of this task outstanding right now? -/
def isRunningPhase {α β : Type} : TaskPhase α β → Bool
  | .running _ => true
  | _ => false

/-- Number of oracle calls outstanding at an instant. -/
def outstandingCalls {α β : Type} (st : BatchState α β) : Nat :=
  st.tasks.countP isRunningPhase

/-- The payload a task was created for; scheduling never changes it. -/
def taskPayload {α β : Type} : TaskPhase α β → α
  | .pending a => a
  | .waiting a => a
  | .running a => a
  | .done a _ => a

/-- A finished task records the result of its own payload. -/
def phaseSound {α β : Type} (f : α → β) : TaskPhase α β → Prop
  | .done a r => r = f a
  | _ => True

/-- asyncio.gather: once every task is finished, return the results in task
(submission) order; before that the batch is still awaiting. -/
def collectResults {α β : Type} : List (TaskPhase α β) → Option (List β)
  | [] => some []
  | .done _ r :: rest => (collectResults rest).map (fun l => r :: l)
  | .pending _ :: _ => none
  | .waiting _ :: _ => none
  | .running _ :: _ => none

/-! ## Grouping by conversation identifier (pandas groupby) -/

/-- Insert into an ascending list (the comparison pandas sorts group keys
with). -/
def insertAsc (x : ℤ) : List ℤ → List ℤ
  | [] => [x]
  | y :: ys => if x ≤ y then x :: y :: ys else y :: insertAsc x ys

/-- Ascending sort of the distinct keys (pandas groupby default sort). -/
def sortAsc : List ℤ → List ℤ
  | [] => []
  | x :: xs => insertAsc x (sortAsc xs)

/-- The distinct values of a list in order of first appearance. -/
def dedupFirstAux (seen : List ℤ) : List ℤ → List ℤ
  | [] => []
  | x :: xs => if seen.contains x then dedupFirstAux seen xs else x :: dedupFirstAux (x :: seen) xs

/-- Distinct conversation identifiers in order of first appearance in the
input rows: the order the specification claims for the output. -/
def dedupFirst (l : List ℤ) : List ℤ :=
  dedupFirstAux [] l

/-- One transcript row of the batch input: its conversation identifier and
an opaque payload standing for the remaining columns. -/
abbrev BRow : Type := ℤ × String

/-- The group keys as df.groupby("chat_id") iterates them: distinct
identifiers in ascending order (the groupby default sort=True), not in
first-appearance order. -/
def groupKeys (rows : List BRow) : List ℤ :=
  sortAsc (dedupFirst (rows.map Prod.fst))

/-- The rows of one conversation, in their original relative order
(groupby preserves intra-group order). -/
def rowsFor (rows : List BRow) (k : ℤ) : List BRow :=
  rows.filter (fun r => r.1 == k)

/-- The per-conversation task payloads, in the order the comprehension of
transform_batch_dynamically creates the tasks. -/
def batchTasks (rows : List BRow) : List (List BRow) :=
  (groupKeys rows).map (rowsFor rows)

/-! ## Concrete instances used by the counterexamples and witnesses -/

/-- A model with one required non-identifier field, as synthesized from the
config mapping chat_id to int, user_email to str and consent to bool. -/
def c1Model : RModel :=
  .scalar "chat_id" .pInt false (.scalar "user_email" .pStr false (.scalar "consent" .pBool false .nil))

/-- The schema config that synthesizes c1Model. -/
def c1Cfg : CfgMap :=
  .tagField "chat_id" "int" (.tagField "user_email" "str" (.tagField "consent" "bool" .nilC))

/-- An input row with both identifiers present. -/
def c1Row : InputRow := ⟨1, some "a@b.c"⟩

/-- A model declaring only the two identifiers, user_email optional. -/
def c4Model : RModel :=
  .scalar "chat_id" .pInt false (.scalar "user_email" .pStr true .nil)

/-- An oracle payload carrying its own conversation identifier. -/
def c4Oracle : List (String × JValue) := [("chat_id", .jInt 999)]

/-- A model with one optional nested group whose sole child is optional
(the heuristic default), as synthesized from the config mapping grp to the
mapping a to the tag str vertical-bar None. -/
def c7Model : RModel := .nested "grp" (.scalar "a" .pStr true .nil) true .nil

/-- The schema config that synthesizes c7Model. -/
def c7Cfg : CfgMap := .subField "grp" (.tagField "a" "str | None" .nilC) .nilC

/-- An oracle payload with a whitespace-only string inside the nested
group. -/
def c7Oracle : List (String × JValue) := [("grp", .jObj [("a", .jStr "   ")])]

/-- A config whose single tag is the name Any: not one of the recognised
type tags, not a nested mapping, yet resolvable by the eval fallback. -/
def c10Cfg : CfgMap := .tagField "f" "Any" .nilC

/-- Batch input whose conversation identifiers first appear in the order
two then one. -/
def c2Rows : List BRow := [(2, "b"), (1, "a")]

/-- The conversation-one group of c2Rows. -/
def c2GroupA : List BRow := [(1, "a")]

/-- The conversation-two group of c2Rows. -/
def c2GroupB : List BRow := [(2, "b")]

/-- The batch state after the run of c2Rows in which conversation two
resolves first: both tasks finished, all five permits back. -/
def c2Final : BatchState (List BRow) (List BRow) :=
  ⟨[.done c2GroupA c2GroupA, .done c2GroupB c2GroupB], 5⟩

/-- A model with a single optional text field, for exercising top-level
blank conversion. -/
def c7ScalarModel : RModel := .scalar "motivation" .pStr true .nil

/-- A model with a required nested group (one child required), whose bare
annotation does carry model_fields, so the blank conversion recurses. -/
def c7ReqModel : RModel := .nested "grp" (.scalar "a" .pStr false .nil) false .nil

/-- A model declaring both identifiers, the subject identifier required. -/
def c9Model : RModel := .scalar "chat_id" .pInt false (.scalar "user_email" .pStr false .nil)

/-- An input row carrying a subject identifier. -/
def c9Row1 : InputRow := ⟨1, some "bob@x.y"⟩

/-- An input row whose subject-identifier cell is missing (a pandas nan). -/
def c9Row2 : InputRow := ⟨2, none⟩

/-- An input row for the conversation-identifier backfill witness. -/
def c4Row : InputRow := ⟨3, some "u@v.w"⟩

/-- Acceptability of the raw subject-identifier cell under the declared
scalar type: a text annotation accepts any present string, an email
annotation a string the email check passes; a missing cell (a nan) is
accepted by neither. -/
def emailCellOk : Scalar → Option String → Bool
  | .pStr, some _ => true
  | .pEmail, some e => emailOk e
  | _, _ => false

/-- The conditions under which the tier-3 minimal record is guaranteed to
validate, field by field: the conversation-identifier field (when declared)
is integer-typed; the subject-identifier field (when declared) is text or
email typed and the input row carries a value the type accepts (a missing
input cell reaches tier 3 as a pandas nan, which no string type accepts,
because the placeholder guard of the source compares against None); the
timestamp field (when declared) is datetime-typed; every other declared
field is optional, and nested or forward-reference fields do not reuse the
three identifier names. -/
def minimalFieldsOk (row : InputRow) : RModel → Bool
  | .nil => true
  | .scalar n ty opt rest =>
    (if n == "chat_id" then ty == .pInt
     else if n == "user_email" then emailCellOk ty row.user_email
     else if n == "extracted_at" then ty == .pDatetime
     else opt) && minimalFieldsOk row rest
  | .nested n _ opt rest =>
    (n != "chat_id" && n != "user_email" && n != "extracted_at" && opt) && minimalFieldsOk row rest
  | .fref n _ _ rest =>
    (n != "chat_id" && n != "user_email" && n != "extracted_at") && minimalFieldsOk row rest

/-- The inputs on which the rating branch raises an uncaught OverflowError:
text parsing to an infinite float (round raises), or an integer too large
for float conversion. -/
def ratingRaises (v : JValue) : Bool :=
  match v with
  | .jStr s =>
    (match pyFloatParse s with
     | some .inf => true
     | some .ninf => true
     | _ => false)
  | .jInt n => intOverflows n
  | _ => false

/-! ## Generic facts used across the claims -/

/-- Small integers stay below the float overflow threshold. -/
theorem intOverflows_eq_false {n : ℤ} (h : n.natAbs ≤ 1000) : intOverflows n = false := by
  have h2 : n.natAbs < 2 ^ 1024 := by
    have h3 : (1000 : ℕ) < 2 ^ 1024 := by
      have h4 : (1000 : ℕ) < 2 ^ 10 := by norm_num
      exact lt_of_lt_of_le h4 (Nat.pow_le_pow_right (by norm_num) (by norm_num))
    exact lt_of_le_of_lt h h3
  simp [intOverflows, Nat.not_le.mpr h2]

/-! ## Claim C5: numeric rating coercion -/

/-- Claim C5, counterexample.  The claim says every numeric raw value x is
coerced to round(x) clamped into the closed range one to five; the integer
seven would then become five, but neither coercion stage touches an
out-of-range integer (the branch of _coerce_llm_output only accepts a
rounded value already inside the range, and parse_arabic_likert_string
clamps floats and strings only), and the enum validation then rejects it. -/
theorem c5_out_of_range_int_not_clamped :
    ratingStages (.jInt 7) = .ok (some (.jInt 7)) ∧
    validateScalar .pLikert (.jInt 7) = none ∧
    clamp15 7 = 5 := by
  refine ⟨?_, by rfl, by rfl⟩
  have hb : intOverflows 7 = false := intOverflows_eq_false (by norm_num)
  simp only [ratingStages, likertCoerce, hb, Bool.false_eq_true, if_false]
  norm_num [blankToNone, ratingFieldModel, blankLeaf, Except.map, parseArabicLikertString,
    findDigitRun]

/-- Claim C5, amended: a finite float is rounded (half to even) and clamped
into the range by the combination of the two stages; an in-range integer is
kept; an out-of-range integer below the float overflow threshold is left
unchanged by both stages and the enum validation rejects it; in particular
4.6 coerces to 5. -/
theorem c5_numeric_rating_coercion :
    (∀ q : ℚ, ratingStages (.jFloat q) = .ok (some (.jInt (clamp15 (pyRound q))))) ∧
    (∀ n : ℤ, 1 ≤ n → n ≤ 5 → ratingStages (.jInt n) = .ok (some (.jInt n))) ∧
    (∀ n : ℤ, intOverflows n = false → (n < 1 ∨ 5 < n) →
      ratingStages (.jInt n) = .ok (some (.jInt n)) ∧
      validateScalar .pLikert (.jInt n) = none) := by
  refine ⟨?_, ?_, ?_⟩
  · intro q
    by_cases h : 1 ≤ pyRound q ∧ pyRound q ≤ 5
    · have hc : clamp15 (pyRound q) = pyRound q := by
        unfold clamp15; omega
      simp only [ratingStages, likertCoerce, if_pos h, Except.map, parseArabicLikertString, hc]
    · simp only [ratingStages, likertCoerce, if_neg h, Except.map, blankToNone,
        ratingFieldModel, blankLeaf, beq_self_eq_true, if_true, parseArabicLikertString]
  · intro n h1 h5
    have hb : intOverflows n = false := intOverflows_eq_false (by omega)
    simp only [ratingStages, likertCoerce, hb, Bool.false_eq_true, if_false,
      if_pos (And.intro h1 h5), Except.map, parseArabicLikertString]
  · intro n hbnd hout
    have hr : ¬ (1 ≤ n ∧ n ≤ 5) := by omega
    constructor
    · simp only [ratingStages, likertCoerce, hbnd, Bool.false_eq_true, if_false, if_neg hr,
        Except.map, blankToNone, ratingFieldModel, blankLeaf, beq_self_eq_true, if_true,
        parseArabicLikertString]
    · simp only [validateScalar, parseArabicLikertString, if_neg hr]

/-- Witness for claim C5: the amended statement evaluated at 4.6, at the
in-range integer 4, and at the out-of-range integer 7. -/
theorem c5_numeric_rating_coercion_witness :
    ratingStages (.jFloat (mkRat 23 5)) = .ok (some (.jInt 5)) ∧
    ratingStages (.jInt 4) = .ok (some (.jInt 4)) ∧
    ratingStages (.jInt 7) = .ok (some (.jInt 7)) := by
  refine ⟨?_, c5_numeric_rating_coercion.2.1 4 (by norm_num) (by norm_num),
    (c5_numeric_rating_coercion.2.2 7 (intOverflows_eq_false (by norm_num))
      (by norm_num)).1⟩
  have h := c5_numeric_rating_coercion.1 (mkRat 23 5)
  have hv : clamp15 (pyRound (mkRat 23 5)) = 5 := by decide
  rw [hv] at h
  exact h

/-! ## Claim C6: totality and fallthrough of rating coercion -/

/-- Claim C6, counterexample.  Rating coercion is not total: the text inf
parses to an infinite float, round raises OverflowError, and the handler of
the branch catches only ValueError, so the exception escapes. -/
theorem c6_inf_string_raises :
    ratingStages (.jStr "inf") = .error .overflowError := by
  rfl

/-- Claim C6, amended: the rating branch raises no exception except on
values whose float conversion is infinite (text parsing to an infinity, or
an integer beyond the float range); a text matching no phrase, parseable by
neither float() nor the digit search, and not blank, passes through both
stages unchanged; a blank text becomes the explicit absence marker rather
than staying unchanged. -/
theorem c6_rating_coercion_fallthrough :
    (∀ v : JValue, ratingRaises v = false → (ratingStages v).isOk = true) ∧
    (∀ s : String, alookupS LIKERT_STRING_TO_INT_MAP (pyLower (pyStrip s)) = none →
      pyFloatParse s = none → findDigitRun s = none → pyStrip s ≠ "" →
      ratingStages (.jStr s) = .ok (some (.jStr s))) ∧
    (∀ s : String, pyStrip s = "" → ratingStages (.jStr s) = .ok (some .jNull)) := by
  refine ⟨?_, ?_, ?_⟩
  · intro v h
    cases v with
    | jStr s =>
      simp only [ratingStages, likertCoerce]
      cases hm : alookupS LIKERT_STRING_TO_INT_MAP (pyLower (pyStrip s)) with
      | some mv => simp [Except.map, Except.isOk, Except.toBool]
      | none =>
        cases hp : pyFloatParse s with
        | none => simp [Except.map, Except.isOk, Except.toBool]
        | some pf =>
          cases pf with
          | finite q =>
            by_cases hr : 1 ≤ pyRound q ∧ pyRound q ≤ 5 <;>
              simp [hr, Except.map, Except.isOk, Except.toBool]
          | inf => simp [ratingRaises, hp] at h
          | ninf => simp [ratingRaises, hp] at h
          | nan => simp [Except.map, Except.isOk, Except.toBool]
    | jInt n =>
      have hb : intOverflows n = false := h
      simp only [ratingStages, likertCoerce, hb, Bool.false_eq_true, if_false]
      by_cases hr : 1 ≤ n ∧ n ≤ 5 <;> simp [hr, Except.map, Except.isOk, Except.toBool]
    | jFloat q =>
      simp only [ratingStages, likertCoerce]
      by_cases hr : 1 ≤ pyRound q ∧ pyRound q ≤ 5 <;> simp [hr, Except.map, Except.isOk, Except.toBool]
    | jBool b => cases b <;> simp [ratingStages, likertCoerce, Except.map, Except.isOk, Except.toBool]
    | jNull => simp [ratingStages, likertCoerce, Except.map, Except.isOk, Except.toBool]
    | jNaN => simp [ratingStages, likertCoerce, Except.map, Except.isOk, Except.toBool]
    | jTime t => simp [ratingStages, likertCoerce, Except.map, Except.isOk, Except.toBool]
    | jObj o => simp [ratingStages, likertCoerce, Except.map, Except.isOk, Except.toBool]
    | jArr a => simp [ratingStages, likertCoerce, Except.map, Except.isOk, Except.toBool]
  · intro s h1 h2 h3 h4
    have hb : (pyStrip s == "") = false := by
      simp [h4]
    simp only [ratingStages, likertCoerce, h1, h2, Except.map, blankToNone, ratingFieldModel,
      beq_self_eq_true, if_true, blankLeaf, hb, Bool.false_eq_true, if_false,
      parseArabicLikertString, h3]
  · intro s h
    have h1 : alookupS LIKERT_STRING_TO_INT_MAP (pyLower (pyStrip s)) = none := by
      rw [h]; decide
    have h2 : pyFloatParse s = none := by
      unfold pyFloatParse
      rw [h]
      rfl
    have hb : (pyStrip s == "") = true := by
      simp [h]
    simp only [ratingStages, likertCoerce, h1, h2, Except.map, blankToNone, ratingFieldModel,
      beq_self_eq_true, if_true, blankLeaf, hb, parseArabicLikertString]

/-- Witness for claim C6: the amended statement evaluated at the text not a
rating (unchanged), at a whitespace-only text (absence marker), and at a
non-raising boolean. -/
theorem c6_rating_coercion_fallthrough_witness :
    ratingStages (.jStr "not a rating") = .ok (some (.jStr "not a rating")) ∧
    ratingStages (.jStr " ") = .ok (some .jNull) ∧
    (ratingStages (.jBool false)).isOk = true := by
  refine ⟨c6_rating_coercion_fallthrough.2.1 "not a rating" (by decide) (by decide) (by decide)
    (by decide), c6_rating_coercion_fallthrough.2.2 " " (by decide),
    c6_rating_coercion_fallthrough.1 (.jBool false) (by decide)⟩

/-! ## Claim C8: determinism of schema synthesis -/

/-- Structural equality is reflexive. -/
theorem structEq_refl : ∀ m : RModel, structEq m m = true := by
  intro m
  induction m with
  | nil => rfl
  | scalar n t o r ih => simp [structEq, ih]
  | nested n s o r ihs ihr => simp [structEq, ihs, ihr]
  | fref n f o r ih => simp [structEq, ih]

/-- Claim C8: schema synthesis is deterministic.  Two successful calls of
create_dynamic_model on the same config produce structurally equal record
types: same field names, same resolved types, same optionality, recursively
through nested sub-records.  (The synthesis is a pure function of the
config; the two returned class objects differ only by identity, which
structEq deliberately ignores.) -/
theorem c8_synthesis_deterministic (mn : String) (cfg : CfgMap) (m1 m2 : RModel)
    (h1 : createDynamicModel mn cfg = .ok m1) (h2 : createDynamicModel mn cfg = .ok m2) :
    structEq m1 m2 = true := by
  rw [h1] at h2
  cases h2
  exact structEq_refl m1

/-- Witness for claim C8: the three-field config synthesizes c1Model twice,
structurally equal. -/
theorem c8_synthesis_deterministic_witness : structEq c1Model c1Model = true :=
  c8_synthesis_deterministic "M" c1Cfg c1Model c1Model (by rfl) (by rfl)

/-! ## Claim C10: when schema synthesis fails -/

/-- A prefixed parse that resolves yields the same scalar resolution as the
unprefixed one (the prefix enters only the ForwardRef name). -/
theorem parse_scalar_tagResolves (pfx s : String) (sc : Scalar) (opt : Bool)
    (h : parseTypeString pfx s = .scalarT sc opt) : tagResolves s = true := by
  unfold parseTypeString at h
  unfold tagResolves parseTypeString
  cases h1 : alookupS TYPE_MAP (stripTag s) with
  | some sc2 => simp [h1]
  | none =>
    cases h2 : alookupS evalKnownTypes (stripTag s) with
    | some sc2 => simp [h1, h2]
    | none =>
      rw [h1, h2] at h
      cases h3 : evalNonTypes.contains (stripTag s) with
      | true => rw [h3] at h; simp at h
      | false => rw [h3] at h; simp at h

/-- A prefixed parse that produces a forward reference marks the tag as
unresolvable. -/
theorem parse_fref_tagResolves (pfx s : String) (r : String) (opt : Bool)
    (h : parseTypeString pfx s = .frefT r opt) : tagResolves s = false := by
  unfold parseTypeString at h
  unfold tagResolves parseTypeString
  cases h1 : alookupS TYPE_MAP (stripTag s) with
  | some sc2 => rw [h1] at h; simp at h
  | none =>
    cases h2 : alookupS evalKnownTypes (stripTag s) with
    | some sc2 => rw [h1, h2] at h; simp at h
    | none =>
      rw [h1, h2] at h
      cases h3 : evalNonTypes.contains (stripTag s) with
      | true => rw [h3] at h; simp at h
      | false => simp [h1, h2, h3]

/-- A prefixed parse that lands on a resolvable-but-non-annotatable name
also marks the tag as unresolvable for synthesis purposes. -/
theorem parse_bad_tagResolves (pfx s : String) (nm : String)
    (h : parseTypeString pfx s = .badT nm) : tagResolves s = false := by
  unfold parseTypeString at h
  unfold tagResolves parseTypeString
  cases h1 : alookupS TYPE_MAP (stripTag s) with
  | some sc2 => rw [h1] at h; simp at h
  | none =>
    cases h2 : alookupS evalKnownTypes (stripTag s) with
    | some sc2 => rw [h1, h2] at h; simp at h
    | none =>
      rw [h1, h2] at h
      cases h3 : evalNonTypes.contains (stripTag s) with
      | true => simp [h1, h2, h3]
      | false => rw [h3] at h; simp at h

/-- The field-building loop succeeds with a ForwardRef-free model exactly on
resolvable configs. -/
theorem createFields_spec : ∀ (cfg : CfgMap) (mn : String),
    (cfgResolvable cfg = true → ∃ m, createFields mn cfg = .ok m ∧ hasFref m = false) ∧
    (∀ m, createFields mn cfg = .ok m → hasFref m = false → cfgResolvable cfg = true) := by
  intro cfg
  induction cfg with
  | nilC =>
    intro mn
    exact ⟨fun _ => ⟨.nil, rfl, rfl⟩, fun _ _ _ => rfl⟩
  | tagField n s rest ih =>
    intro mn
    constructor
    · intro hres
      simp only [cfgResolvable, Bool.and_eq_true] at hres
      obtain ⟨hm, hok, hfr⟩ := (ih mn).1 hres.2
      cases hp : parseTypeString (mn ++ "_") s with
      | scalarT sc opt =>
        refine ⟨.scalar n sc opt hm, ?_, ?_⟩
        · simp [createFields, hp, hok]
        · simp [hasFref, hfr]
      | badT nm =>
        have := parse_bad_tagResolves _ _ _ hp
        rw [this] at hres
        simp at hres
      | frefT r o =>
        have := parse_fref_tagResolves _ _ _ _ hp
        rw [this] at hres
        simp at hres
    · intro m hok hfr
      cases hp : parseTypeString (mn ++ "_") s with
      | scalarT sc opt =>
        simp only [createFields, hp] at hok
        cases hr : createFields mn rest with
        | error e => rw [hr] at hok; cases hok
        | ok r =>
          rw [hr] at hok
          cases hok
          simp only [hasFref] at hfr
          simp only [cfgResolvable, Bool.and_eq_true]
          exact ⟨parse_scalar_tagResolves _ _ _ _ hp, (ih mn).2 r hr hfr⟩
      | badT nm =>
        simp only [createFields, hp] at hok
        exact Except.noConfusion hok
      | frefT rf o =>
        simp only [createFields, hp] at hok
        cases hr : createFields mn rest with
        | error e => rw [hr] at hok; cases hok
        | ok r =>
          rw [hr] at hok
          cases hok
          simp only [hasFref] at hfr
          exact Bool.noConfusion hfr
  | subField n sub rest ihs ihr =>
    intro mn
    constructor
    · intro hres
      simp only [cfgResolvable, Bool.and_eq_true] at hres
      obtain ⟨ms, hoks, hfrs⟩ := (ihs (mn ++ "_" ++ pyCapitalize n)).1 hres.1
      obtain ⟨mr, hokr, hfrr⟩ := (ihr mn).1 hres.2
      refine ⟨.nested n ms (nestedOptional sub) mr, ?_, ?_⟩
      · simp [createFields, hoks, hfrs, hokr]
      · simp [hasFref, hfrs, hfrr]
    · intro m hok hfr
      cases hs : createFields (mn ++ "_" ++ pyCapitalize n) sub with
      | error e =>
        simp only [createFields, hs] at hok
        exact Except.noConfusion hok
      | ok ms =>
        simp only [createFields, hs] at hok
        cases hfs : hasFref ms with
        | true => rw [hfs] at hok; simp at hok
        | false =>
          rw [hfs] at hok
          simp only [Bool.false_eq_true, if_false] at hok
          cases hr : createFields mn rest with
          | error e => rw [hr] at hok; cases hok
          | ok mr =>
            rw [hr] at hok
            cases hok
            simp only [hasFref, Bool.or_eq_false_iff] at hfr
            simp only [cfgResolvable, Bool.and_eq_true]
            exact ⟨(ihs _).2 ms hs hfs, (ihr mn).2 mr hr hfr.2⟩
  | otherField n rest ih =>
    intro mn
    constructor
    · intro hres
      simp [cfgResolvable] at hres
    · intro m hok _
      simp only [createFields] at hok
      cases hok

/-- A well-formed config (recognised tags and nested mappings only) is
resolvable. -/
theorem cfgWellFormed_resolvable : ∀ cfg : CfgMap, cfgWellFormed cfg = true → cfgResolvable cfg = true := by
  intro cfg
  induction cfg with
  | nilC => intro _; rfl
  | tagField n s rest ih =>
    intro h
    simp only [cfgWellFormed, Bool.and_eq_true] at h
    simp only [cfgResolvable, Bool.and_eq_true]
    refine ⟨?_, ih h.2⟩
    obtain ⟨sc, hsc⟩ := Option.isSome_iff_exists.mp h.1
    simp only [tagResolves, parseTypeString, hsc]
  | subField n sub rest ihs ihr =>
    intro h
    simp only [cfgWellFormed, Bool.and_eq_true] at h
    simp only [cfgResolvable, Bool.and_eq_true]
    exact ⟨ihs h.1, ihr h.2⟩
  | otherField n rest ih =>
    intro h
    simp [cfgWellFormed] at h

/-- Claim C10, counterexample.  A config whose single entry is the tag Any,
or the tag Dict, holds neither a recognised type-tag string (TYPE_MAP
contains neither name) nor a nested map, so by the claim synthesis should
fail with a schema error; but the eval fallback of _parse_type_string
resolves both names from the typing import in the module globals and
synthesis succeeds. -/
theorem c10_any_tag_succeeds :
    createDynamicModel "M" c10Cfg = .ok (.scalar "f" .pAny false .nil) ∧
    createDynamicModel "M" (.tagField "f" "Dict" .nilC) =
      .ok (.scalar "f" (.pOther "Dict") false .nil) ∧
    alookupS TYPE_MAP "Any" = none ∧
    alookupS TYPE_MAP "Dict" = none ∧
    cfgWellFormed c10Cfg = false := by
  refine ⟨by rfl, by rfl, by decide, by decide, by decide⟩

/-- Claim C10, amended: on configs whose tags are modeled plain names,
synthesis succeeds exactly when every entry is a type string that resolves
to a usable annotation (a TYPE_MAP tag, optionally with the vertical-bar
None suffix, or a name of the eval environment bound to a type pydantic
accepts, such as Any or Dict) or a nested mapping of the same shape; in
particular every well-formed config (recognised tags and nested maps only)
synthesizes without failure.  The failures are: an entry that is neither a
string nor a mapping (the ValueError of the else branch), a tag naming an
environment object create_model cannot build a schema for, and an unknown
tag, whose NameError becomes a ForwardRef that never resolves, because the
generated classes live in no namespace model_rebuild(force=True) consults,
so the forced rebuild raises after the whole tree is processed. -/
theorem c10_failure_characterisation :
    (∀ mn cfg, cfgTagsModeled cfg = true →
      ((createDynamicModel mn cfg).isOk = true ↔ cfgResolvable cfg = true)) ∧
    (∀ mn cfg, cfgWellFormed cfg = true → (createDynamicModel mn cfg).isOk = true) := by
  have main : ∀ mn cfg, (createDynamicModel mn cfg).isOk = true ↔ cfgResolvable cfg = true := by
    intro mn cfg
    constructor
    · intro h
      unfold createDynamicModel at h
      cases hcf : createFields mn cfg with
      | error e =>
        rw [hcf] at h
        simp [Except.isOk, Except.toBool] at h
      | ok m =>
        rw [hcf] at h
        dsimp only [] at h
        cases hf : hasFref m with
        | true =>
          rw [hf] at h
          simp [Except.isOk, Except.toBool] at h
        | false => exact (createFields_spec cfg mn).2 m hcf hf
    · intro hres
      obtain ⟨m, hok, hfr⟩ := (createFields_spec cfg mn).1 hres
      unfold createDynamicModel
      rw [hok]
      dsimp only []
      rw [hfr]
      simp [Except.isOk, Except.toBool]
  exact ⟨fun mn cfg _ => main mn cfg,
    fun mn cfg hwf => (main mn cfg).mpr (cfgWellFormed_resolvable cfg hwf)⟩

/-- Witness for claim C10: the three-field config is inside the modeled
fragment, well-formed and resolvable, and synthesis succeeds on it. -/
theorem c10_failure_characterisation_witness :
    cfgTagsModeled c1Cfg = true ∧
    (createDynamicModel "M" c1Cfg).isOk = true ∧ cfgResolvable c1Cfg = true := by
  refine ⟨by decide, c10_failure_characterisation.2 "M" c1Cfg (by decide), ?_⟩
  exact (c10_failure_characterisation.1 "M" c1Cfg (by decide)).mp
    (c10_failure_characterisation.2 "M" c1Cfg (by decide))

/-! ## Claim C3: the admission gate bounds outstanding oracle calls -/

/-- Each scheduler transition preserves the sum of outstanding calls and
free permits: acquiring trades a permit for an outstanding call, finishing
trades back, starting touches neither. -/
theorem batchStep_outstanding {α β : Type} {f : α → β} {s1 s2 : BatchState α β}
    (h : BatchStep f s1 s2) :
    outstandingCalls s2 + s2.sem = outstandingCalls s1 + s1.sem := by
  cases h with
  | start l r a s =>
    simp [outstandingCalls, List.countP_append, List.countP_cons, isRunningPhase]
  | acquire l r a s =>
    simp [outstandingCalls, List.countP_append, List.countP_cons, isRunningPhase]
    omega
  | finish l r a s =>
    simp [outstandingCalls, List.countP_append, List.countP_cons, isRunningPhase]
    omega

/-- In every state reachable from the initial batch state, outstanding calls
plus free permits equal the configured bound. -/
theorem batch_outstanding_inv {α β : Type} (f : α → β) (ts : List α) (N : ℕ)
    (s : BatchState α β)
    (h : Relation.ReflTransGen (BatchStep f) (initBatch ts N) s) :
    outstandingCalls s + s.sem = N := by
  induction h with
  | refl =>
    simp [outstandingCalls, initBatch, List.countP_map, isRunningPhase, Function.comp_def]
  | tail hsteps hstep ih =>
    have h2 := batchStep_outstanding hstep
    omega

/-- Claim C3: with an admission gate of N permits, at no reachable instant
of a batch run are more than N oracle calls outstanding.  By construction
of the step relation, the gate is acquired before a call becomes
outstanding and released when it completes, on success and failure alike. -/
theorem c3_gate_bounds_outstanding_calls {α β : Type} (f : α → β) (ts : List α) (N : ℕ)
    (s : BatchState α β)
    (h : Relation.ReflTransGen (BatchStep f) (initBatch ts N) s) :
    outstandingCalls s ≤ N := by
  have h2 := batch_outstanding_inv f ts N s h
  omega

/-- Witness for claim C3: with bound one and two tasks, the state in which
the first task holds the gate has one outstanding call, within the bound. -/
theorem c3_gate_bounds_outstanding_calls_witness :
    outstandingCalls (⟨[.running 1, .pending 2], 0⟩ : BatchState ℕ ℕ) ≤ 1 := by
  have h1 : BatchStep (fun a : ℕ => a) (initBatch [1, 2] 1) ⟨[.waiting 1, .pending 2], 1⟩ :=
    BatchStep.start [] [.pending 2] 1 1
  have h2 : BatchStep (fun a : ℕ => a) ⟨[.waiting 1, .pending 2], 1⟩
      ⟨[.running 1, .pending 2], 0⟩ :=
    BatchStep.acquire [] [.pending 2] 1 0
  exact c3_gate_bounds_outstanding_calls (fun a => a) [1, 2] 1 _
    (Relation.ReflTransGen.tail (Relation.ReflTransGen.tail Relation.ReflTransGen.refl h1) h2)

/-! ## Claim C2: output order of the fan-out orchestrator -/

/-- Scheduling never changes which payload sits at which task position. -/
theorem batchStep_payload {α β : Type} {f : α → β} {s1 s2 : BatchState α β}
    (h : BatchStep f s1 s2) :
    s2.tasks.map taskPayload = s1.tasks.map taskPayload := by
  cases h with
  | start l r a s => simp [taskPayload]
  | acquire l r a s => simp [taskPayload]
  | finish l r a s => simp [taskPayload]

/-- Scheduling preserves the fact that every recorded result is the result
of the own payload of its task. -/
theorem batchStep_sound {α β : Type} {f : α → β} {s1 s2 : BatchState α β}
    (h : BatchStep f s1 s2) (hs : ∀ t ∈ s1.tasks, phaseSound f t) :
    ∀ t ∈ s2.tasks, phaseSound f t := by
  cases h with
  | start l r a s =>
    intro t ht
    rcases List.mem_append.mp ht with hl | hr
    · exact hs t (List.mem_append.mpr (Or.inl hl))
    · rcases List.mem_cons.mp hr with rfl | hrr
      · trivial
      · exact hs t (List.mem_append.mpr (Or.inr (List.mem_cons.mpr (Or.inr hrr))))
  | acquire l r a s =>
    intro t ht
    rcases List.mem_append.mp ht with hl | hr
    · exact hs t (List.mem_append.mpr (Or.inl hl))
    · rcases List.mem_cons.mp hr with rfl | hrr
      · trivial
      · exact hs t (List.mem_append.mpr (Or.inr (List.mem_cons.mpr (Or.inr hrr))))
  | finish l r a s =>
    intro t ht
    rcases List.mem_append.mp ht with hl | hr
    · exact hs t (List.mem_append.mpr (Or.inl hl))
    · rcases List.mem_cons.mp hr with rfl | hrr
      · exact rfl
      · exact hs t (List.mem_append.mpr (Or.inr (List.mem_cons.mpr (Or.inr hrr))))

/-- When gather returns, the results are the per-payload results in task
order. -/
theorem collectResults_eq {α β : Type} (f : α → β) :
    ∀ (ts : List (TaskPhase α β)) (out : List β),
      (∀ t ∈ ts, phaseSound f t) → collectResults ts = some out →
      out = (ts.map taskPayload).map f := by
  intro ts
  induction ts with
  | nil =>
    intro out _ hc
    simp only [collectResults, Option.some.injEq] at hc
    simp [← hc]
  | cons t rest ih =>
    intro out hs hc
    cases t with
    | done a r =>
      simp only [collectResults] at hc
      cases hcr : collectResults rest with
      | none => rw [hcr] at hc; cases hc
      | some ro =>
        rw [hcr] at hc
        have hc2 : some (r :: ro) = some out := hc
        cases hc2
        have hr : r = f a := hs (.done a r) (List.mem_cons_self _ _)
        have hro := ih ro (fun t2 ht2 => hs t2 (List.mem_cons.mpr (Or.inr ht2))) hcr
        simp [taskPayload, hr, hro]
    | pending a => simp [collectResults] at hc
    | waiting a => simp [collectResults] at hc
    | running a => simp [collectResults] at hc

/-- Inserting into a list grows it by one element. -/
theorem length_insertAsc (x : ℤ) : ∀ l : List ℤ, (insertAsc x l).length = l.length + 1 := by
  intro l
  induction l with
  | nil => rfl
  | cons y ys ih =>
    by_cases h : x ≤ y <;> simp [insertAsc, h, ih]

/-- Sorting preserves length. -/
theorem length_sortAsc : ∀ l : List ℤ, (sortAsc l).length = l.length := by
  intro l
  induction l with
  | nil => rfl
  | cons x xs ih => simp [sortAsc, length_insertAsc, ih]

/-- Deduplication yields a sublist of the input. -/
theorem dedupFirstAux_sublist : ∀ (l seen : List ℤ), (dedupFirstAux seen l).Sublist l := by
  intro l
  induction l with
  | nil => intro seen; exact List.Sublist.refl _
  | cons x xs ih =>
    intro seen
    by_cases h : seen.contains x
    · simp only [dedupFirstAux, h, if_true]
      exact List.Sublist.cons x (ih seen)
    · simp only [dedupFirstAux, h, Bool.false_eq_true, if_false]
      exact List.Sublist.cons₂ x (ih (x :: seen))

/-- An already ascending list is a fixed point of the sort. -/
theorem sortAsc_eq_self : ∀ l : List ℤ, l.Pairwise (· ≤ ·) → sortAsc l = l := by
  intro l
  induction l with
  | nil => intro _; rfl
  | cons x xs ih =>
    intro hp
    have hx := List.pairwise_cons.mp hp
    have hxs := ih hx.2
    simp only [sortAsc, hxs]
    cases xs with
    | nil => rfl
    | cons y ys => simp [insertAsc, hx.1 y (List.mem_cons_self _ _)]

/-- Claim C2, amended: for every input and every complete schedule, the
orchestrator returns exactly one result per distinct conversation
identifier, in ascending identifier order (the pandas groupby sorted key
order), independently of the order in which the oracle calls complete; this
coincides with first-appearance order exactly when the input rows arrive
already sorted by conversation identifier, as the input contract
prescribes. -/
theorem c2_output_sorted_by_chat_id {β : Type} (rows : List BRow) (f : List BRow → β)
    (N : ℕ) (s : BatchState (List BRow) β) (out : List β)
    (h : Relation.ReflTransGen (BatchStep f) (initBatch (batchTasks rows) N) s)
    (hc : collectResults s.tasks = some out) :
    out = (groupKeys rows).map (fun k => f (rowsFor rows k)) ∧
    out.length = (dedupFirst (rows.map Prod.fst)).length ∧
    (List.Chain' (· ≤ ·) (rows.map Prod.fst) →
      groupKeys rows = dedupFirst (rows.map Prod.fst)) := by
  have hpay : s.tasks.map taskPayload = batchTasks rows := by
    clear hc
    induction h with
    | refl => simp [initBatch, List.map_map, taskPayload, Function.comp_def]
    | tail hsteps hstep ih => rw [batchStep_payload hstep]; exact ih
  have hsound : ∀ t ∈ s.tasks, phaseSound f t := by
    clear hc hpay
    induction h with
    | refl =>
      intro t ht
      simp only [initBatch, List.mem_map] at ht
      obtain ⟨a, _, rfl⟩ := ht
      trivial
    | tail hsteps hstep ih => exact batchStep_sound hstep ih
  have hout : out = (groupKeys rows).map (fun k => f (rowsFor rows k)) := by
    have h1 := collectResults_eq f s.tasks out hsound hc
    rw [hpay] at h1
    simpa [batchTasks, List.map_map, Function.comp_def] using h1
  refine ⟨hout, ?_, ?_⟩
  · rw [hout]
    simp [groupKeys, length_sortAsc]
  · intro hch
    have hpw : (rows.map Prod.fst).Pairwise (· ≤ ·) := List.chain'_iff_pairwise.mp hch
    have hdp : (dedupFirst (rows.map Prod.fst)).Pairwise (· ≤ ·) :=
      hpw.sublist (dedupFirstAux_sublist _ [])
    exact sortAsc_eq_self _ hdp

/-- Witness for claim C2: a one-conversation batch run through a complete
schedule returns exactly that conversation group. -/
theorem c2_output_sorted_by_chat_id_witness :
    [[((1 : ℤ), "a")]] = (groupKeys [((1 : ℤ), "a")]).map
      (fun k => rowsFor [((1 : ℤ), "a")] k) := by
  have h1 : BatchStep (fun g : List BRow => g) (initBatch (batchTasks [((1 : ℤ), "a")]) 5)
      ⟨[.waiting [((1 : ℤ), "a")]], 5⟩ :=
    BatchStep.start [] [] [((1 : ℤ), "a")] 5
  have h2 : BatchStep (fun g : List BRow => g) ⟨[.waiting [((1 : ℤ), "a")]], 5⟩
      ⟨[.running [((1 : ℤ), "a")]], 4⟩ :=
    BatchStep.acquire [] [] [((1 : ℤ), "a")] 4
  have h3 : BatchStep (fun g : List BRow => g) ⟨[.running [((1 : ℤ), "a")]], 4⟩
      ⟨[.done [((1 : ℤ), "a")] [((1 : ℤ), "a")]], 5⟩ :=
    BatchStep.finish [] [] [((1 : ℤ), "a")] 4
  exact (c2_output_sorted_by_chat_id [((1 : ℤ), "a")] (fun g => g) 5
    ⟨[.done [((1 : ℤ), "a")] [((1 : ℤ), "a")]], 5⟩ [[((1 : ℤ), "a")]]
    (Relation.ReflTransGen.tail (Relation.ReflTransGen.tail
      (Relation.ReflTransGen.tail Relation.ReflTransGen.refl h1) h2) h3) (by rfl)).1

/-- Claim C2, counterexample.  With input rows whose conversation
identifiers first appear in the order two then one, a complete run in which
conversation two even resolves first still returns the groups in ascending
identifier order (one before two), not in first-appearance order: groupby
sorts its keys. -/
theorem c2_output_not_first_appearance :
    Relation.ReflTransGen (BatchStep (fun g : List BRow => g))
      (initBatch (batchTasks c2Rows) 5) c2Final ∧
    collectResults c2Final.tasks = some [c2GroupA, c2GroupB] ∧
    dedupFirst (c2Rows.map Prod.fst) = [2, 1] ∧
    groupKeys c2Rows = [1, 2] ∧
    [c2GroupA, c2GroupB] ≠ [c2GroupB, c2GroupA] := by
  refine ⟨?_, by rfl, by decide, by decide, by decide⟩
  have h1 : BatchStep (fun g : List BRow => g) (initBatch (batchTasks c2Rows) 5)
      ⟨[.pending c2GroupA, .waiting c2GroupB], 5⟩ :=
    BatchStep.start [.pending c2GroupA] [] c2GroupB 5
  have h2 : BatchStep (fun g : List BRow => g) ⟨[.pending c2GroupA, .waiting c2GroupB], 5⟩
      ⟨[.pending c2GroupA, .running c2GroupB], 4⟩ :=
    BatchStep.acquire [.pending c2GroupA] [] c2GroupB 4
  have h3 : BatchStep (fun g : List BRow => g) ⟨[.pending c2GroupA, .running c2GroupB], 4⟩
      ⟨[.pending c2GroupA, .done c2GroupB c2GroupB], 5⟩ :=
    BatchStep.finish [.pending c2GroupA] [] c2GroupB 4
  have h4 : BatchStep (fun g : List BRow => g)
      ⟨[.pending c2GroupA, .done c2GroupB c2GroupB], 5⟩
      ⟨[.waiting c2GroupA, .done c2GroupB c2GroupB], 5⟩ :=
    BatchStep.start [] [.done c2GroupB c2GroupB] c2GroupA 5
  have h5 : BatchStep (fun g : List BRow => g)
      ⟨[.waiting c2GroupA, .done c2GroupB c2GroupB], 5⟩
      ⟨[.running c2GroupA, .done c2GroupB c2GroupB], 4⟩ :=
    BatchStep.acquire [] [.done c2GroupB c2GroupB] c2GroupA 4
  have h6 : BatchStep (fun g : List BRow => g)
      ⟨[.running c2GroupA, .done c2GroupB c2GroupB], 4⟩ c2Final :=
    BatchStep.finish [] [.done c2GroupB c2GroupB] c2GroupA 4
  exact Relation.ReflTransGen.tail (Relation.ReflTransGen.tail (Relation.ReflTransGen.tail
    (Relation.ReflTransGen.tail (Relation.ReflTransGen.tail
      (Relation.ReflTransGen.tail Relation.ReflTransGen.refl h1) h2) h3) h4) h5) h6

/-! ## Association-list lemmas -/

/-- Looking up the key just set returns the new value. -/
theorem alookupJ_setKeyJ_self : ∀ (d : List (String × JValue)) (k : String) (v : JValue),
    alookupJ (setKeyJ d k v) k = some v := by
  intro d k v
  induction d with
  | nil => simp [setKeyJ, alookupJ]
  | cons kv rest ih =>
    obtain ⟨k0, w⟩ := kv
    cases hb : (k0 == k) with
    | true => simp [setKeyJ, hb, alookupJ]
    | false => simp [setKeyJ, hb, alookupJ, ih]

/-- Setting one key leaves the lookup of any other key unchanged. -/
theorem alookupJ_setKeyJ_ne : ∀ (d : List (String × JValue)) (k k2 : String) (v : JValue),
    k ≠ k2 → alookupJ (setKeyJ d k v) k2 = alookupJ d k2 := by
  intro d k k2 v hne
  induction d with
  | nil =>
    have h2 : (k == k2) = false := beq_eq_false_iff_ne.mpr hne
    simp [setKeyJ, alookupJ, h2]
  | cons kv rest ih =>
    obtain ⟨k0, w⟩ := kv
    cases hb : (k0 == k) with
    | true =>
      have hk0 : k0 = k := eq_of_beq hb
      have h2 : (k0 == k2) = false := beq_eq_false_iff_ne.mpr (hk0 ▸ hne)
      simp [setKeyJ, hb, alookupJ, h2]
    | false => simp [setKeyJ, hb, alookupJ, ih]

/-- A binding found on the left of an append is found in the append. -/
theorem alookupJ_append_some : ∀ (d e : List (String × JValue)) (k : String) (v : JValue),
    alookupJ d k = some v → alookupJ (d ++ e) k = some v := by
  intro d e k v h
  induction d with
  | nil => cases h
  | cons kv rest ih =>
    obtain ⟨k0, w⟩ := kv
    cases hb : (k0 == k) with
    | true => simp_all [alookupJ, hb]
    | false =>
      simp only [alookupJ, hb, Bool.false_eq_true, if_false] at h
      simp only [List.cons_append, alookupJ, hb, Bool.false_eq_true, if_false]
      exact ih h

/-- A key absent on the left of an append is looked up on the right. -/
theorem alookupJ_append_none : ∀ (d e : List (String × JValue)) (k : String),
    alookupJ d k = none → alookupJ (d ++ e) k = alookupJ e k := by
  intro d e k h
  induction d with
  | nil => rfl
  | cons kv rest ih =>
    obtain ⟨k0, w⟩ := kv
    cases hb : (k0 == k) with
    | true => simp_all [alookupJ, hb]
    | false =>
      simp only [alookupJ, hb, Bool.false_eq_true, if_false] at h
      simp only [List.cons_append, alookupJ, hb, Bool.false_eq_true, if_false]
      exact ih h

/-- The loop that appends None bindings never disturbs a key already
present. -/
theorem addMissingLoop_preserve : ∀ (ns : List String) (d : List (String × JValue)) (k : String),
    hasKeyJ d k = true → alookupJ (addMissingLoop ns d) k = alookupJ d k := by
  intro ns
  induction ns with
  | nil => intro d k _; rfl
  | cons n rest ih =>
    intro d k hk
    obtain ⟨v, hv⟩ := Option.isSome_iff_exists.mp hk
    cases hdn : hasKeyJ d n with
    | true => simp only [addMissingLoop, hdn, if_true]; exact ih d k hk
    | false =>
      simp only [addMissingLoop, hdn, Bool.false_eq_true, if_false]
      have h1 : alookupJ (d ++ [(n, JValue.jNull)]) k = some v := alookupJ_append_some d _ k v hv
      have h2 : hasKeyJ (d ++ [(n, JValue.jNull)]) k = true := by
        unfold hasKeyJ
        rw [h1]
        rfl
      rw [ih _ k h2, h1, hv]

/-- The loop binds an absent listed key to None. -/
theorem addMissingLoop_adds : ∀ (ns : List String) (d : List (String × JValue)) (k : String),
    hasKeyJ d k = false → k ∈ ns → alookupJ (addMissingLoop ns d) k = some .jNull := by
  intro ns
  induction ns with
  | nil => intro d k _ hm; cases hm
  | cons n rest ih =>
    intro d k hk hm
    have hdk : alookupJ d k = none := by
      cases hx : alookupJ d k with
      | none => rfl
      | some v => unfold hasKeyJ at hk; rw [hx] at hk; cases hk
    by_cases hnk : n = k
    · subst hnk
      simp only [addMissingLoop, hk, Bool.false_eq_true, if_false]
      have h1 : alookupJ (d ++ [(n, JValue.jNull)]) n = some .jNull := by
        rw [alookupJ_append_none d _ n hdk]
        simp [alookupJ]
      have h2 : hasKeyJ (d ++ [(n, JValue.jNull)]) n = true := by
        unfold hasKeyJ
        rw [h1]
        rfl
      rw [addMissingLoop_preserve rest _ n h2, h1]
    · have hm2 : k ∈ rest := by
        cases List.mem_cons.mp hm with
        | inl h => exact absurd h.symm hnk
        | inr h => exact h
      cases hdn : hasKeyJ d n with
      | true => simp only [addMissingLoop, hdn, if_true]; exact ih d k hk hm2
      | false =>
        simp only [addMissingLoop, hdn, Bool.false_eq_true, if_false]
        have hb : (n == k) = false := beq_eq_false_iff_ne.mpr hnk
        have hk2 : hasKeyJ (d ++ [(n, JValue.jNull)]) k = false := by
          unfold hasKeyJ
          rw [alookupJ_append_none d _ k hdk]
          simp [alookupJ, hb]
        exact ih _ k hk2 hm2

/-- Field membership agrees with membership in the name list. -/
theorem hasField_iff_mem : ∀ (m : RModel) (k : String),
    hasField m k = true ↔ k ∈ fieldNames m := by
  intro m k
  induction m with
  | nil => simp [hasField, findField, fieldNames]
  | scalar n ty opt rest ih =>
    cases hb : (n == k) with
    | true =>
      have : n = k := eq_of_beq hb
      subst this
      simp [hasField, findField, fieldNames]
    | false =>
      have hne : n ≠ k := by
        intro hh
        rw [hh] at hb
        simp at hb
      simp only [hasField, findField, hb, Bool.false_eq_true, if_false, fieldNames,
        List.mem_cons]
      rw [← hasField]
      rw [ih]
      constructor
      · exact Or.inr
      · intro hor
        cases hor with
        | inl h => exact absurd h.symm hne
        | inr h => exact h
  | nested n sub opt rest ihs ih =>
    cases hb : (n == k) with
    | true =>
      have : n = k := eq_of_beq hb
      subst this
      simp [hasField, findField, fieldNames]
    | false =>
      have hne : n ≠ k := by
        intro hh
        rw [hh] at hb
        simp at hb
      simp only [hasField, findField, hb, Bool.false_eq_true, if_false, fieldNames,
        List.mem_cons]
      rw [← hasField]
      rw [ih]
      constructor
      · exact Or.inr
      · intro hor
        cases hor with
        | inl h => exact absurd h.symm hne
        | inr h => exact h
  | fref n ref opt rest ih =>
    cases hb : (n == k) with
    | true =>
      have : n = k := eq_of_beq hb
      subst this
      simp [hasField, findField, fieldNames]
    | false =>
      have hne : n ≠ k := by
        intro hh
        rw [hh] at hb
        simp at hb
      simp only [hasField, findField, hb, Bool.false_eq_true, if_false, fieldNames,
        List.mem_cons]
      rw [← hasField]
      rw [ih]
      constructor
      · exact Or.inr
      · intro hor
        cases hor with
        | inl h => exact absurd h.symm hne
        | inr h => exact h

/-- Filtering by a predicate on keys preserves the lookup of any key the
predicate keeps. -/
theorem alookupJ_filter : ∀ (d : List (String × JValue)) (p : String → Bool) (k : String),
    p k = true → alookupJ (d.filter (fun kv => p kv.1)) k = alookupJ d k := by
  intro d p k hp
  induction d with
  | nil => rfl
  | cons kv rest ih =>
    obtain ⟨k0, w⟩ := kv
    cases hb : (k0 == k) with
    | true =>
      have hk0 : k0 = k := eq_of_beq hb
      subst hk0
      simp only [List.filter, hp, alookupJ, hb, if_true]
    | false =>
      cases hpk : p k0 with
      | true => simp only [List.filter, hpk, alookupJ, hb, Bool.false_eq_true, if_false]; exact ih
      | false => simp only [List.filter, hpk, alookupJ, hb, Bool.false_eq_true, if_false]; exact ih

/-! ## Blank-conversion and coercion lemmas -/

/-- A blank string becomes None whatever field info accompanies it. -/
theorem blankToNone_blankStr : ∀ (m : RModel) (k : String) (s : String),
    pyStrip s = "" → blankToNone m k (.jStr s) = .jNull := by
  intro m k s h
  have hb : (pyStrip s == "") = true := by simp [h]
  induction m with
  | nil => simp [blankToNone, blankLeaf, hb]
  | scalar n ty opt rest ih =>
    cases hn : (n == k) with
    | true => simp [blankToNone, hn, blankLeaf, hb]
    | false => simp only [blankToNone, hn, Bool.false_eq_true, if_false]; exact ih
  | nested n sub opt rest ihs ih =>
    cases hn : (n == k) with
    | true => simp [blankToNone, hn, hb]
    | false => simp only [blankToNone, hn, Bool.false_eq_true, if_false]; exact ih
  | fref n ref opt rest ih =>
    cases hn : (n == k) with
    | true => simp [blankToNone, hn, blankLeaf, hb]
    | false => simp only [blankToNone, hn, Bool.false_eq_true, if_false]; exact ih

/-- On a field whose annotation is scalar, the blank conversion is exactly
the leaf case. -/
theorem blankToNone_of_scalar : ∀ (m : RModel) (k : String) (sc : Scalar) (opt : Bool),
    findField m k = some (.scalarK sc opt) → ∀ v, blankToNone m k v = blankLeaf v := by
  intro m
  induction m with
  | nil => intro k sc opt h; cases h
  | scalar n ty o rest ih =>
    intro k sc opt h v
    cases hn : (n == k) with
    | true => simp [blankToNone, hn]
    | false =>
      simp only [findField, hn, Bool.false_eq_true, if_false] at h
      simp only [blankToNone, hn, Bool.false_eq_true, if_false]
      exact ih k sc opt h v
  | nested n sub o rest ihs ih =>
    intro k sc opt h v
    cases hn : (n == k) with
    | true => simp only [findField, hn, if_true, Option.some.injEq] at h; cases h
    | false =>
      simp only [findField, hn, Bool.false_eq_true, if_false] at h
      simp only [blankToNone, hn, Bool.false_eq_true, if_false]
      exact ih k sc opt h v
  | fref n ref o rest ih =>
    intro k sc opt h v
    cases hn : (n == k) with
    | true => simp only [findField, hn, if_true, Option.some.injEq] at h; cases h
    | false =>
      simp only [findField, hn, Bool.false_eq_true, if_false] at h
      simp only [blankToNone, hn, Bool.false_eq_true, if_false]
      exact ih k sc opt h v

/-- On a required nested field, the blank conversion of a dict recurses into
every child with the child field info. -/
theorem blankToNone_nested_req : ∀ (m : RModel) (k : String) (sub : RModel),
    findField m k = some (.nestedK sub false) →
    ∀ o, blankToNone m k (.jObj o) =
      .jObj (o.map (fun kv => (kv.1, blankToNone sub kv.1 kv.2))) := by
  intro m
  induction m with
  | nil => intro k sub h; cases h
  | scalar n ty o2 rest ih =>
    intro k sub h o
    cases hn : (n == k) with
    | true => simp only [findField, hn, if_true, Option.some.injEq] at h; cases h
    | false =>
      simp only [findField, hn, Bool.false_eq_true, if_false] at h
      simp only [blankToNone, hn, Bool.false_eq_true, if_false]
      exact ih k sub h o
  | nested n sub2 o2 rest ihs ih =>
    intro k sub h o
    cases hn : (n == k) with
    | true =>
      simp only [findField, hn, if_true, Option.some.injEq, FieldKind.nestedK.injEq] at h
      obtain ⟨rfl, h2⟩ := h
      simp [blankToNone, hn, ← h2]
    | false =>
      simp only [findField, hn, Bool.false_eq_true, if_false] at h
      simp only [blankToNone, hn, Bool.false_eq_true, if_false]
      exact ih k sub h o
  | fref n ref o2 rest ih =>
    intro k sub h o
    cases hn : (n == k) with
    | true => simp only [findField, hn, if_true, Option.some.injEq] at h; cases h
    | false =>
      simp only [findField, hn, Bool.false_eq_true, if_false] at h
      simp only [blankToNone, hn, Bool.false_eq_true, if_false]
      exact ih k sub h o

/-- On an optional nested field, the annotation is a Union without
model_fields, so the dict passes through untouched, blanks inside and all. -/
theorem blankToNone_nested_opt : ∀ (m : RModel) (k : String) (sub : RModel),
    findField m k = some (.nestedK sub true) →
    ∀ o, blankToNone m k (.jObj o) = .jObj o := by
  intro m
  induction m with
  | nil => intro k sub h; cases h
  | scalar n ty o2 rest ih =>
    intro k sub h o
    cases hn : (n == k) with
    | true => simp only [findField, hn, if_true, Option.some.injEq] at h; cases h
    | false =>
      simp only [findField, hn, Bool.false_eq_true, if_false] at h
      simp only [blankToNone, hn, Bool.false_eq_true, if_false]
      exact ih k sub h o
  | nested n sub2 o2 rest ihs ih =>
    intro k sub h o
    cases hn : (n == k) with
    | true =>
      simp only [findField, hn, if_true, Option.some.injEq, FieldKind.nestedK.injEq] at h
      simp [blankToNone, hn, h.2]
    | false =>
      simp only [findField, hn, Bool.false_eq_true, if_false] at h
      simp only [blankToNone, hn, Bool.false_eq_true, if_false]
      exact ih k sub h o
  | fref n ref o2 rest ih =>
    intro k sub h o
    cases hn : (n == k) with
    | true => simp only [findField, hn, if_true, Option.some.injEq] at h; cases h
    | false =>
      simp only [findField, hn, Bool.false_eq_true, if_false] at h
      simp only [blankToNone, hn, Bool.false_eq_true, if_false]
      exact ih k sub h o

/-- A field with a non-rating scalar annotation is not the rating branch. -/
theorem isDirectLikert_of_scalar : ∀ (m : RModel) (k : String) (sc : Scalar) (opt : Bool),
    findField m k = some (.scalarK sc opt) → sc ≠ .pLikert →
    isDirectLikert m k = false := by
  intro m k sc opt h hne
  unfold isDirectLikert
  rw [h]
  cases sc <;> first | rfl | exact absurd rfl hne

/-- A nested field is never the rating branch. -/
theorem isDirectLikert_of_nested : ∀ (m : RModel) (k : String) (sub : RModel) (opt : Bool),
    findField m k = some (.nestedK sub opt) → isDirectLikert m k = false := by
  intro m k sub opt h
  unfold isDirectLikert
  rw [h]

/-- On a key that is neither the rating branch nor one of the two specially
repaired names, the coercion of one entry is exactly the blank
conversion. -/
theorem coerceEntry_plain : ∀ (m : RModel) (k : String) (v : JValue),
    isDirectLikert m k = false → k ≠ "education" → k ≠ "contact_info" →
    coerceEntry m k v = .ok (blankToNone m k v) := by
  intro m k v hdl h1 h2
  unfold coerceEntry
  rw [hdl]
  have hb1 : (k == "education") = false := beq_eq_false_iff_ne.mpr h1
  have hb2 : (k == "contact_info") = false := beq_eq_false_iff_ne.mpr h2
  simp [hb1, hb2]

/-- The coercion of one entry turns any blank string into None, whatever
the field kind: the rating branch falls through to the blank conversion
(the phrase table has no blank key and float of a blank text raises the
caught ValueError), the two repair branches only fire on dict values. -/
theorem coerceEntry_blankStr : ∀ (m : RModel) (k : String) (s : String),
    pyStrip s = "" → coerceEntry m k (.jStr s) = .ok .jNull := by
  intro m k s h
  unfold coerceEntry
  cases hdl : isDirectLikert m k with
  | true =>
    have h1 : alookupS LIKERT_STRING_TO_INT_MAP (pyLower (pyStrip s)) = none := by
      rw [h]; decide
    have h2 : pyFloatParse s = none := by
      unfold pyFloatParse
      rw [h]
      rfl
    simp only [if_true, likertCoerce, h1, h2]
    rw [blankToNone_blankStr m k s h]
  | false =>
    simp only [Bool.false_eq_true, if_false]
    by_cases hb1 : (k == "education") = true
    · simp only [hb1, if_true]
      rw [blankToNone_blankStr m k s h]
    · simp only [hb1]
      by_cases hb2 : (k == "contact_info") = true
      · simp [hb2, blankToNone_blankStr m k s h]
      · simp [hb2, blankToNone_blankStr m k s h]

/-- The coerced payload has no key the oracle payload lacks. -/
theorem coerce_keys_none : ∀ (m : RModel) (data c : List (String × JValue)) (k : String),
    coerceLlmOutput m data = .ok c → alookupJ data k = none → alookupJ c k = none := by
  intro m data
  induction data with
  | nil =>
    intro c k hc hl
    cases hc
    rfl
  | cons kv rest ih =>
    obtain ⟨k0, v0⟩ := kv
    intro c k hc hl
    have hb : (k0 == k) = false := by
      cases hbb : (k0 == k) with
      | true => simp only [alookupJ, hbb, if_true] at hl; cases hl
      | false => rfl
    simp only [alookupJ, hb, Bool.false_eq_true, if_false] at hl
    simp only [coerceLlmOutput] at hc
    cases hf : hasField m k0 with
    | true =>
      rw [hf] at hc
      simp only [if_true] at hc
      cases he : coerceEntry m k0 v0 with
      | error e => rw [he] at hc; cases hc
      | ok w =>
        rw [he] at hc
        cases hr : coerceLlmOutput m rest with
        | error e => rw [hr] at hc; cases hc
        | ok r =>
          rw [hr] at hc
          cases hc
          simp only [alookupJ, hb, Bool.false_eq_true, if_false]
          exact ih r k hr hl
    | false =>
      rw [hf] at hc
      simp only [Bool.false_eq_true, if_false] at hc
      exact ih c k hc hl

/-- The coerced value of a present model key is the entry coercion of its
first occurrence in the oracle payload. -/
theorem coerce_lookup : ∀ (m : RModel) (data c : List (String × JValue)) (k : String)
    (v : JValue), coerceLlmOutput m data = .ok c → hasField m k = true →
    alookupJ data k = some v →
    ∃ w, coerceEntry m k v = .ok w ∧ alookupJ c k = some w := by
  intro m data
  induction data with
  | nil => intro c k v _ _ hl; cases hl
  | cons kv rest ih =>
    obtain ⟨k0, v0⟩ := kv
    intro c k v hc hf hl
    simp only [coerceLlmOutput] at hc
    cases hb : (k0 == k) with
    | true =>
      have hk0 : k0 = k := eq_of_beq hb
      subst hk0
      simp only [alookupJ, hb, if_true, Option.some.injEq] at hl
      subst hl
      rw [hf] at hc
      simp only [if_true] at hc
      cases he : coerceEntry m k0 v0 with
      | error e => rw [he] at hc; cases hc
      | ok w =>
        rw [he] at hc
        cases hr : coerceLlmOutput m rest with
        | error e => rw [hr] at hc; cases hc
        | ok r =>
          rw [hr] at hc
          cases hc
          exact ⟨w, rfl, by simp [alookupJ, hb]⟩
    | false =>
      simp only [alookupJ, hb, Bool.false_eq_true, if_false] at hl
      cases hf0 : hasField m k0 with
      | true =>
        rw [hf0] at hc
        simp only [if_true] at hc
        cases he : coerceEntry m k0 v0 with
        | error e => rw [he] at hc; cases hc
        | ok w =>
          rw [he] at hc
          cases hr : coerceLlmOutput m rest with
          | error e => rw [hr] at hc; cases hc
          | ok r =>
            rw [hr] at hc
            cases hc
            obtain ⟨w2, hw2, hlw⟩ := ih r k v hr hf hl
            exact ⟨w2, hw2, by simpa [alookupJ, hb] using hlw⟩
      | false =>
        rw [hf0] at hc
        simp only [Bool.false_eq_true, if_false] at hc
        exact ih c k v hc hf hl

/-! ## Validation lemmas -/

/-- In a successful model_validate, each scalar field of the model took its
value from the scalar-field validation of its looked-up data value, and the
instance exposes that value under the field name (first occurrence on both
sides). -/
theorem validateFields_ok_scalar : ∀ (m : RModel) (d inst : List (String × JValue))
    (n : String) (sc : Scalar) (opt : Bool),
    validateFields m d = some inst → findField m n = some (.scalarK sc opt) →
    ∃ w, validateScalarField sc opt (alookupJ d n) = some w ∧ alookupJ inst n = some w := by
  intro m
  induction m with
  | nil => intro d inst n sc opt hv hf; cases hf
  | scalar n0 sc0 opt0 rest ih =>
    intro d inst n sc opt hv hf
    simp only [validateFields] at hv
    split at hv
    · cases hv
    · rename_i w0 heq
      cases hr : validateFields rest d with
      | none => rw [hr] at hv; cases hv
      | some r =>
        rw [hr] at hv
        have hv2 : some ((n0, w0) :: r) = some inst := hv
        cases hv2
        cases hb : (n0 == n) with
        | true =>
          have hn0 : n0 = n := eq_of_beq hb
          subst hn0
          simp only [findField, beq_self_eq_true, if_true, Option.some.injEq] at hf
          cases hf
          exact ⟨w0, heq, by simp [alookupJ]⟩
        | false =>
          simp only [findField, hb, Bool.false_eq_true, if_false] at hf
          obtain ⟨w, hw, hl⟩ := ih d r n sc opt hr hf
          exact ⟨w, hw, by simpa [alookupJ, hb] using hl⟩
  | nested n0 sub opt0 rest ihs ih =>
    intro d inst n sc opt hv hf
    have hb : (n0 == n) = false := by
      cases hbb : (n0 == n) with
      | true =>
        have hn0 : n0 = n := eq_of_beq hbb
        subst hn0
        simp only [findField, beq_self_eq_true, if_true, Option.some.injEq] at hf
        cases hf
      | false => rfl
    have hfr : findField rest n = some (.scalarK sc opt) := by
      simpa [findField, hb] using hf
    have step : ∀ (w0 : JValue),
        (validateFields rest d).map (fun r => (n0, w0) :: r) = some inst →
        ∃ w, validateScalarField sc opt (alookupJ d n) = some w ∧ alookupJ inst n = some w := by
      intro w0 hmap
      cases hr : validateFields rest d with
      | none => rw [hr] at hmap; cases hmap
      | some r =>
        rw [hr] at hmap
        have hv2 : some ((n0, w0) :: r) = some inst := hmap
        cases hv2
        obtain ⟨w, hw, hl⟩ := ih d r n sc opt hr hfr
        exact ⟨w, hw, by simpa [alookupJ, hb] using hl⟩
    simp only [validateFields] at hv
    split at hv
    · split at hv
      · exact step _ hv
      · split at hv
        · cases hv
        · exact step _ hv
    · split at hv
      · exact step _ hv
      · cases hv
    · split at hv
      · cases hv
      · exact step _ hv
    · cases hv
  | fref n0 ref opt0 rest ih =>
    intro d inst n sc opt hv hf
    have hb : (n0 == n) = false := by
      cases hbb : (n0 == n) with
      | true =>
        have hn0 : n0 = n := eq_of_beq hbb
        subst hn0
        simp only [findField, beq_self_eq_true, if_true, Option.some.injEq] at hf
        cases hf
      | false => rfl
    have hfr : findField rest n = some (.scalarK sc opt) := by
      simpa [findField, hb] using hf
    have step : ∀ (w0 : JValue),
        (validateFields rest d).map (fun r => (n0, w0) :: r) = some inst →
        ∃ w, validateScalarField sc opt (alookupJ d n) = some w ∧ alookupJ inst n = some w := by
      intro w0 hmap
      cases hr : validateFields rest d with
      | none => rw [hr] at hmap; cases hmap
      | some r =>
        rw [hr] at hmap
        have hv2 : some ((n0, w0) :: r) = some inst := hmap
        cases hv2
        obtain ⟨w, hw, hl⟩ := ih d r n sc opt hr hfr
        exact ⟨w, hw, by simpa [alookupJ, hb] using hl⟩
    simp only [validateFields] at hv
    split at hv
    · exact step _ hv
    · split at hv
      · exact step _ hv
      · cases hv

/-! ## Tier-construction lemmas -/

/-- The row cell value is never the Python None (a missing cell is a nan). -/
theorem rowEmailVal_ne_null (row : InputRow) : (rowEmailVal row).isNone = false := by
  cases hre : row.user_email <;> simp [rowEmailVal, hre, JValue.isNone]

/-- The email backfill touches only the user_email key. -/
theorem backfill_preserves : ∀ (m : RModel) (row : InputRow) (d : List (String × JValue))
    (k : String), k ≠ "user_email" → alookupJ (backfillUserEmail m row d) k = alookupJ d k := by
  intro m row d k h
  have hne : "user_email" ≠ k := fun hh => h hh.symm
  unfold backfillUserEmail
  split
  · split
    · exact alookupJ_setKeyJ_ne d _ k _ hne
    · split
      · split
        · split
          · exact alookupJ_setKeyJ_ne d _ k _ hne
          · rfl
        · rfl
      · rfl
  · rfl

/-- The timestamp overwrite touches only the extracted_at key. -/
theorem setExtractedAt_preserves : ∀ (m : RModel) (now : Nat) (d : List (String × JValue))
    (k : String), k ≠ "extracted_at" → alookupJ (setExtractedAt m now d) k = alookupJ d k := by
  intro m now d k h
  have hne : "extracted_at" ≠ k := fun hh => h hh.symm
  unfold setExtractedAt
  split
  · exact alookupJ_setKeyJ_ne d _ k _ hne
  · rfl

/-- When the current data lacks the key or holds None there, the backfill
installs the row value. -/
theorem backfill_sets_fromRow : ∀ (m : RModel) (row : InputRow) (d : List (String × JValue))
    (e : String), row.user_email = some e →
    (alookupJ d "user_email" = none ∨ alookupJ d "user_email" = some .jNull) →
    alookupJ (backfillUserEmail m row d) "user_email" = some (.jStr e) := by
  intro m row d e hrow hd
  unfold backfillUserEmail
  have hcond : (!hasKeyJ d "user_email" || getIsNone (alookupJ d "user_email")) = true := by
    unfold hasKeyJ
    cases hd with
    | inl hn => rw [hn]; rfl
    | inr hj => rw [hj]; rfl
  rw [hcond, hrow]
  simp only [if_true]
  exact alookupJ_setKeyJ_self d _ _

/-- When the row cell is missing and the model requires user_email, the
backfill installs the placeholder. -/
theorem backfill_sets_placeholder : ∀ (m : RModel) (row : InputRow)
    (d : List (String × JValue)) (sc : Scalar), row.user_email = none →
    findField m "user_email" = some (.scalarK sc false) →
    (alookupJ d "user_email" = none ∨ alookupJ d "user_email" = some .jNull) →
    alookupJ (backfillUserEmail m row d) "user_email" = some (.jStr EMAIL_PLACEHOLDER) := by
  intro m row d sc hrow hreq hd
  unfold backfillUserEmail
  have hinner : getIsNone (alookupJ d "user_email") = true := by
    cases hd with
    | inl hn => rw [hn]; rfl
    | inr hj => rw [hj]; rfl
  have hcond : (!hasKeyJ d "user_email" || getIsNone (alookupJ d "user_email")) = true := by
    rw [hinner]
    simp
  rw [hcond, hrow, hreq]
  simp only [if_true, fieldIsRequired, Bool.not_false, hinner]
  exact alookupJ_setKeyJ_self d _ _

/-- A present non-None user_email is left alone by the backfill. -/
theorem backfill_noop : ∀ (m : RModel) (row : InputRow) (d : List (String × JValue))
    (v : JValue), alookupJ d "user_email" = some v → v.isNone = false →
    backfillUserEmail m row d = d := by
  intro m row d v hv hnn
  unfold backfillUserEmail
  have hcond : (!hasKeyJ d "user_email" || getIsNone (alookupJ d "user_email")) = false := by
    unfold hasKeyJ
    rw [hv]
    simp only [Option.isSome_some, Bool.not_true, Bool.false_or]
    exact hnn
  rw [hcond]
  simp

/-- The tier-1 chat_id when the oracle omitted it. -/
theorem tier1_chat : ∀ (m : RModel) (row : InputRow) (now : Nat)
    (coerced : List (String × JValue)), hasKeyJ coerced "chat_id" = false →
    alookupJ (tier1Data m row now coerced) "chat_id" = some (.jInt row.chat_id) := by
  intro m row now coerced h
  unfold tier1Data
  rw [h]
  simp only [Bool.not_false, if_true]
  rw [setExtractedAt_preserves _ _ _ _ (by decide), backfill_preserves _ _ _ _ (by decide)]
  exact alookupJ_setKeyJ_self coerced _ _

/-- The tier-1 user_email when the coerced payload lacks it or holds None
and the row carries a value. -/
theorem tier1_email_fromRow : ∀ (m : RModel) (row : InputRow) (now : Nat)
    (coerced : List (String × JValue)) (e : String), row.user_email = some e →
    (alookupJ coerced "user_email" = none ∨ alookupJ coerced "user_email" = some .jNull) →
    alookupJ (tier1Data m row now coerced) "user_email" = some (.jStr e) := by
  intro m row now coerced e hrow hco
  unfold tier1Data
  rw [setExtractedAt_preserves _ _ _ _ (by decide)]
  apply backfill_sets_fromRow _ _ _ _ hrow
  split
  · cases hco with
    | inl hn => exact Or.inl (by rw [alookupJ_setKeyJ_ne _ _ _ _ (by decide)]; exact hn)
    | inr hj => exact Or.inr (by rw [alookupJ_setKeyJ_ne _ _ _ _ (by decide)]; exact hj)
  · exact hco

/-- The tier-1 user_email when both the oracle and the row lack it and the
model requires it. -/
theorem tier1_email_placeholder : ∀ (m : RModel) (row : InputRow) (now : Nat)
    (coerced : List (String × JValue)) (sc : Scalar), row.user_email = none →
    findField m "user_email" = some (.scalarK sc false) →
    (alookupJ coerced "user_email" = none ∨ alookupJ coerced "user_email" = some .jNull) →
    alookupJ (tier1Data m row now coerced) "user_email" = some (.jStr EMAIL_PLACEHOLDER) := by
  intro m row now coerced sc hrow hreq hco
  unfold tier1Data
  rw [setExtractedAt_preserves _ _ _ _ (by decide)]
  apply backfill_sets_placeholder _ _ _ _ hrow hreq
  split
  · cases hco with
    | inl hn => exact Or.inl (by rw [alookupJ_setKeyJ_ne _ _ _ _ (by decide)]; exact hn)
    | inr hj => exact Or.inr (by rw [alookupJ_setKeyJ_ne _ _ _ _ (by decide)]; exact hj)
  · exact hco

/-- Tier 2 preserves a present chat_id or any other retained non-identifier
key value (the filter keeps model fields, the backfills touch only the two
identifier keys). -/
theorem tier2_lookup : ∀ (m : RModel) (row : InputRow) (now : Nat)
    (d1 : List (String × JValue)) (k : String) (v : JValue),
    hasField m k = true → alookupJ d1 k = some v → k ≠ "user_email" → k ≠ "extracted_at" →
    alookupJ (tier2Data m row now d1) k = some v := by
  intro m row now d1 k v hf hv hk1 hk2
  unfold tier2Data
  rw [setExtractedAt_preserves _ _ _ _ hk2, backfill_preserves _ _ _ _ hk1]
  have hfl : alookupJ (d1.filter (fun kv => hasField m kv.1)) k = some v := by
    rw [alookupJ_filter d1 _ k hf]
    exact hv
  by_cases hck : k = "chat_id"
  · subst hck
    have hkey : hasKeyJ (d1.filter (fun kv => hasField m kv.1)) "chat_id" = true := by
      unfold hasKeyJ
      rw [hfl]
      rfl
    rw [hkey]
    simp only [Bool.not_true, Bool.false_eq_true, if_false]
    exact hfl
  · split
    · rw [alookupJ_setKeyJ_ne _ _ _ _ (fun hh => hck hh.symm)]
      exact hfl
    · exact hfl

/-- Tier 2 keeps a present non-None user_email value. -/
theorem tier2_email : ∀ (m : RModel) (row : InputRow) (now : Nat)
    (d1 : List (String × JValue)) (e : String), hasField m "user_email" = true →
    alookupJ d1 "user_email" = some (.jStr e) →
    alookupJ (tier2Data m row now d1) "user_email" = some (.jStr e) := by
  intro m row now d1 e hf hv
  unfold tier2Data
  have hfl : alookupJ (d1.filter (fun kv => hasField m kv.1)) "user_email" = some (.jStr e) := by
    rw [alookupJ_filter d1 _ _ hf]
    exact hv
  have hcs : alookupJ
      (if !hasKeyJ (d1.filter (fun kv => hasField m kv.1)) "chat_id" then
        setKeyJ (d1.filter (fun kv => hasField m kv.1)) "chat_id" (.jInt row.chat_id)
      else d1.filter (fun kv => hasField m kv.1)) "user_email" = some (.jStr e) := by
    split
    · rw [alookupJ_setKeyJ_ne _ _ _ _ (by decide)]
      exact hfl
    · exact hfl
  rw [setExtractedAt_preserves _ _ _ _ (by decide), backfill_noop _ _ _ _ hcs (by rfl)]
  exact hcs

/-- The tier-3 minimal record binds chat_id to the row value. -/
theorem minimal_chat : ∀ (m : RModel) (row : InputRow) (now : Nat),
    alookupJ (minimalData m row now) "chat_id" = some (.jInt row.chat_id) := by
  intro m row now
  unfold minimalData
  have hcnd : getIsNone (alookupJ [("chat_id", JValue.jInt row.chat_id),
      ("user_email", rowEmailVal row)] "user_email") = false := by
    have hlk : alookupJ [("chat_id", JValue.jInt row.chat_id),
        ("user_email", rowEmailVal row)] "user_email" = some (rowEmailVal row) := by
      simp [alookupJ]
    rw [hlk]
    exact rowEmailVal_ne_null row
  simp only [hcnd]
  simp only [Bool.false_eq_true, if_false]
  have hpre : alookupJ (setExtractedAt m now
      [("chat_id", JValue.jInt row.chat_id), ("user_email", rowEmailVal row)]) "chat_id" =
      some (.jInt row.chat_id) := by
    rw [setExtractedAt_preserves _ _ _ _ (by decide)]
    rfl
  unfold addMissingNulls
  rw [addMissingLoop_preserve _ _ _ (by unfold hasKeyJ; rw [hpre]; rfl)]
  exact hpre

/-- The tier-3 minimal record binds user_email to the raw row cell (string
or nan; the placeholder guard compares against None and never fires). -/
theorem minimal_email : ∀ (m : RModel) (row : InputRow) (now : Nat),
    alookupJ (minimalData m row now) "user_email" = some (rowEmailVal row) := by
  intro m row now
  unfold minimalData
  have hcnd : getIsNone (alookupJ [("chat_id", JValue.jInt row.chat_id),
      ("user_email", rowEmailVal row)] "user_email") = false := by
    have hlk : alookupJ [("chat_id", JValue.jInt row.chat_id),
        ("user_email", rowEmailVal row)] "user_email" = some (rowEmailVal row) := by
      simp [alookupJ]
    rw [hlk]
    exact rowEmailVal_ne_null row
  simp only [hcnd]
  simp only [Bool.false_eq_true, if_false]
  have hpre : alookupJ (setExtractedAt m now
      [("chat_id", JValue.jInt row.chat_id), ("user_email", rowEmailVal row)]) "user_email" =
      some (rowEmailVal row) := by
    rw [setExtractedAt_preserves _ _ _ _ (by decide)]
    rfl
  unfold addMissingNulls
  rw [addMissingLoop_preserve _ _ _ (by unfold hasKeyJ; rw [hpre]; rfl)]
  exact hpre

/-- The tier-3 minimal record binds every other declared field to None. -/
theorem minimal_other : ∀ (m : RModel) (row : InputRow) (now : Nat) (n : String),
    n ≠ "chat_id" → n ≠ "user_email" → n ≠ "extracted_at" → hasField m n = true →
    alookupJ (minimalData m row now) n = some .jNull := by
  intro m row now n h1 h2 h3 hf
  unfold minimalData
  have hcnd : getIsNone (alookupJ [("chat_id", JValue.jInt row.chat_id),
      ("user_email", rowEmailVal row)] "user_email") = false := by
    have hlk : alookupJ [("chat_id", JValue.jInt row.chat_id),
        ("user_email", rowEmailVal row)] "user_email" = some (rowEmailVal row) := by
      simp [alookupJ]
    rw [hlk]
    exact rowEmailVal_ne_null row
  simp only [hcnd]
  simp only [Bool.false_eq_true, if_false]
  have hb1 : ("chat_id" == n) = false := beq_eq_false_iff_ne.mpr (fun hh => h1 hh.symm)
  have hb2 : ("user_email" == n) = false := beq_eq_false_iff_ne.mpr (fun hh => h2 hh.symm)
  have hpre : alookupJ (setExtractedAt m now
      [("chat_id", JValue.jInt row.chat_id), ("user_email", rowEmailVal row)]) n = none := by
    rw [setExtractedAt_preserves _ _ _ _ h3]
    simp [alookupJ, hb1, hb2]
  unfold addMissingNulls
  apply addMissingLoop_adds
  · unfold hasKeyJ
    rw [hpre]
    rfl
  · exact (hasField_iff_mem m n).mp hf

/-- The tier-3 minimal record always overwrites a declared extracted_at
field with the current time. -/
theorem minimal_extracted : ∀ (m : RModel) (row : InputRow) (now : Nat),
    hasField m "extracted_at" = true →
    alookupJ (minimalData m row now) "extracted_at" = some (.jTime now) := by
  intro m row now hf
  unfold minimalData
  have hcnd : getIsNone (alookupJ [("chat_id", JValue.jInt row.chat_id),
      ("user_email", rowEmailVal row)] "user_email") = false := by
    have hlk : alookupJ [("chat_id", JValue.jInt row.chat_id),
        ("user_email", rowEmailVal row)] "user_email" = some (rowEmailVal row) := by
      simp [alookupJ]
    rw [hlk]
    exact rowEmailVal_ne_null row
  simp only [hcnd]
  simp only [Bool.false_eq_true, if_false]
  have hpre : alookupJ (setExtractedAt m now
      [("chat_id", JValue.jInt row.chat_id), ("user_email", rowEmailVal row)]) "extracted_at" =
      some (.jTime now) := by
    unfold setExtractedAt
    rw [hf]
    simp only [if_true]
    exact alookupJ_setKeyJ_self _ _ _
  unfold addMissingNulls
  rw [addMissingLoop_preserve _ _ _ (by unfold hasKeyJ; rw [hpre]; rfl)]
  exact hpre

/-- In a successful model_validate, a field annotated as text or email
exposes exactly the looked-up string value (so the email check accepted
it). -/
theorem validateFields_scalar_strval : ∀ (m : RModel) (d inst : List (String × JValue))
    (n : String) (sc : Scalar) (opt : Bool) (e : String),
    validateFields m d = some inst → findField m n = some (.scalarK sc opt) →
    (sc = .pStr ∨ sc = .pEmail) → alookupJ d n = some (.jStr e) →
    alookupJ inst n = some (.jStr e) := by
  intro m d inst n sc opt e hv hf hsc hl
  obtain ⟨w, hw, hiw⟩ := validateFields_ok_scalar m d inst n sc opt hv hf
  rw [hl] at hw
  have hvs : validateScalarField sc opt (some (.jStr e)) = validateScalar sc (.jStr e) := by
    cases opt <;> rfl
  rw [hvs] at hw
  cases hsc with
  | inl h =>
    subst h
    have hw2 : some (JValue.jStr e) = some w := hw
    cases hw2
    exact hiw
  | inr h =>
    subst h
    have hw2 : (if emailOk e = true then some (JValue.jStr e) else none) = some w := hw
    cases hek : emailOk e with
    | true =>
      rw [hek] at hw2
      simp only [if_true, Option.some.injEq] at hw2
      rw [← hw2] at hiw
      exact hiw
    | false =>
      rw [hek] at hw2
      simp only [Bool.false_eq_true, if_false] at hw2
      cases hw2

/-! ## Claim C7: blank-to-absence conversion -/

/-- Claim C7, counterexample.  The claim says the blank conversion applies
recursively inside nested groups as well as at the top level; but the
factory synthesizes an optional nested field (the heuristic default when
every child carries the None marker), whose Union annotation has no
model_fields, so _blank_to_none leaves the inner dict untouched and the
whitespace-only string inside the group survives the coercion pass. -/
theorem c7_blank_kept_in_optional_nested :
    createDynamicModel "M" c7Cfg = .ok c7Model ∧
    coerceLlmOutput c7Model c7Oracle = .ok [("grp", .jObj [("a", .jStr "   ")])] ∧
    pyStrip "   " = "" ∧
    JValue.jStr "   " ≠ JValue.jNull := by
  refine ⟨rfl, rfl, rfl, ?_⟩
  intro h
  exact JValue.noConfusion h

/-- Claim C7, amended.  Top-level blank strings of any model field do become
None in the coerced payload; the recursion into a nested group happens
exactly when the group is required (the bare generated class carries
model_fields), while an optional nested group passes through untouched. -/
theorem c7_blank_conversion_scope :
    (∀ (m : RModel) (data c : List (String × JValue)) (k s : String),
      coerceLlmOutput m data = .ok c → hasField m k = true →
      alookupJ data k = some (.jStr s) → pyStrip s = "" →
      alookupJ c k = some .jNull) ∧
    (∀ (m : RModel) (k : String) (sub : RModel) (o : List (String × JValue)),
      findField m k = some (.nestedK sub false) →
      blankToNone m k (.jObj o) =
        .jObj (o.map (fun kv => (kv.1, blankToNone sub kv.1 kv.2)))) ∧
    (∀ (m : RModel) (k : String) (sub : RModel) (o : List (String × JValue)),
      findField m k = some (.nestedK sub true) →
      blankToNone m k (.jObj o) = .jObj o) := by
  refine ⟨?_, ?_, ?_⟩
  · intro m data c k s hc hf hl hb
    obtain ⟨w, hw, hcw⟩ := coerce_lookup m data c k (.jStr s) hc hf hl
    rw [coerceEntry_blankStr m k s hb] at hw
    injection hw with hw2
    rw [← hw2] at hcw
    exact hcw
  · intro m k sub o hff
    exact blankToNone_nested_req m k sub hff o
  · intro m k sub o hff
    exact blankToNone_nested_opt m k sub hff o

/-- Claim C7, witness: a top-level blank under a text field becomes None, a
required nested group is converted child by child, an optional nested group
passes through. -/
theorem c7_blank_conversion_scope_witness :
    alookupJ [("motivation", JValue.jNull)] "motivation" = some JValue.jNull ∧
    blankToNone c7ReqModel "grp" (.jObj [("a", .jStr "x")]) =
      .jObj (([("a", JValue.jStr "x")] : List (String × JValue)).map
        (fun kv => (kv.1, blankToNone (.scalar "a" .pStr false .nil) kv.1 kv.2))) ∧
    blankToNone c7Model "grp" (.jObj [("a", .jStr " ")]) = .jObj [("a", .jStr " ")] := by
  refine ⟨?_, ?_, ?_⟩
  · exact c7_blank_conversion_scope.1 c7ScalarModel [("motivation", .jStr "  ")]
      [("motivation", JValue.jNull)] "motivation" "  " (by rfl) (by rfl) (by rfl) (by rfl)
  · exact c7_blank_conversion_scope.2.1 c7ReqModel "grp" (.scalar "a" .pStr false .nil)
      [("a", .jStr "x")] (by rfl)
  · exact c7_blank_conversion_scope.2.2 c7Model "grp" (.scalar "a" .pStr true .nil)
      [("a", .jStr " ")] (by rfl)

/-! ## Claim C4: conversation identifier provenance -/

/-- Claim C4, counterexample.  The source sets chat_id from the input row
only when the oracle payload lacks the key, so an oracle-supplied
conversation identifier different from the one of the input rows survives
into the returned instance: the oracle value is trusted whenever present. -/
theorem c4_oracle_chat_id_kept :
    analyse c4Model ⟨1, some "x@y"⟩ 0 c4Oracle =
      .ok [("chat_id", .jInt 999), ("user_email", .jStr "x@y")] ∧
    alookupJ c4Oracle "chat_id" = some (.jInt 999) ∧
    (999 : ℤ) ≠ (1 : ℤ) := by
  refine ⟨rfl, rfl, by decide⟩

/-- Claim C4, amended.  When the oracle payload does not carry the
conversation-identifier key at all, every successful extraction returns an
instance whose conversation identifier is the one of the input rows
(whichever tier produced the instance). -/
theorem c4_chat_id_from_row_when_oracle_silent :
    ∀ (m : RModel) (row : InputRow) (now : Nat) (raw inst : List (String × JValue))
      (opt : Bool),
      findField m "chat_id" = some (.scalarK .pInt opt) →
      alookupJ raw "chat_id" = none →
      analyse m row now raw = .ok inst →
      alookupJ inst "chat_id" = some (.jInt row.chat_id) := by
  intro m row now raw inst opt hf hraw ha
  cases hc : coerceLlmOutput m raw with
  | error e =>
    simp only [analyse, hc] at ha
    exact Except.noConfusion ha
  | ok coerced =>
    simp only [analyse, hc] at ha
    have hck : alookupJ coerced "chat_id" = none :=
      coerce_keys_none m raw coerced "chat_id" hc hraw
    have hkk : hasKeyJ coerced "chat_id" = false := by
      unfold hasKeyJ
      rw [hck]
      rfl
    have hd1 : alookupJ (tier1Data m row now coerced) "chat_id" = some (.jInt row.chat_id) :=
      tier1_chat m row now coerced hkk
    have hstep : ∀ (d inst2 : List (String × JValue)),
        validateFields m d = some inst2 →
        alookupJ d "chat_id" = some (.jInt row.chat_id) →
        alookupJ inst2 "chat_id" = some (.jInt row.chat_id) := by
      intro d inst2 hv hdl
      obtain ⟨w, hw, hiw⟩ := validateFields_ok_scalar m d inst2 "chat_id" .pInt opt hv hf
      rw [hdl] at hw
      have hvs : validateScalarField .pInt opt (some (.jInt row.chat_id)) =
          some (.jInt row.chat_id) := by
        cases opt <;> rfl
      rw [hvs] at hw
      injection hw with hw2
      rw [← hw2] at hiw
      exact hiw
    cases hv1 : validateFields m (tier1Data m row now coerced) with
    | some i1 =>
      simp only [hv1] at ha
      injection ha with hi
      subst hi
      exact hstep _ _ hv1 hd1
    | none =>
      simp only [hv1] at ha
      cases hv2 : validateFields m (tier2Data m row now (tier1Data m row now coerced)) with
      | some i2 =>
        simp only [hv2] at ha
        injection ha with hi
        subst hi
        have hd2 : alookupJ (tier2Data m row now (tier1Data m row now coerced)) "chat_id" =
            some (.jInt row.chat_id) := by
          apply tier2_lookup m row now _ "chat_id" _ _ hd1 (by decide) (by decide)
          unfold hasField
          rw [hf]
          rfl
        exact hstep _ _ hv2 hd2
      | none =>
        simp only [hv2] at ha
        cases hv3 : validateFields m (minimalData m row now) with
        | some i3 =>
          simp only [hv3] at ha
          injection ha with hi
          subst hi
          exact hstep _ _ hv3 (minimal_chat m row now)
        | none =>
          simp only [hv3] at ha
          exact Except.noConfusion ha

/-- Claim C4, witness: a silent oracle and the row with identifier three
yield an instance carrying three. -/
theorem c4_chat_id_from_row_when_oracle_silent_witness :
    alookupJ [("chat_id", JValue.jInt 3), ("user_email", JValue.jStr "u@v.w")] "chat_id" =
      some (.jInt 3) := by
  exact c4_chat_id_from_row_when_oracle_silent c4Model c4Row 0 []
    [("chat_id", JValue.jInt 3), ("user_email", JValue.jStr "u@v.w")] false rfl rfl (by rfl)

/-! ## Claim C9: subject-identifier backfill -/

/-- Claim C9, confirmed.  For a model whose user_email field is text or
email typed, when the oracle payload omits the field, binds it to None, or
binds it to a blank string, every successful extraction returns the row
value when the row carries one; and when the row cell is missing and the
field is required, it returns the documented placeholder. -/
theorem c9_subject_identifier_backfill :
    ∀ (m : RModel) (row : InputRow) (now : Nat) (raw inst : List (String × JValue))
      (sc : Scalar) (opt : Bool),
      findField m "user_email" = some (.scalarK sc opt) →
      (sc = .pStr ∨ sc = .pEmail) →
      (alookupJ raw "user_email" = none ∨ alookupJ raw "user_email" = some .jNull ∨
        ∃ s, alookupJ raw "user_email" = some (.jStr s) ∧ pyStrip s = "") →
      analyse m row now raw = .ok inst →
      ((∀ e, row.user_email = some e → alookupJ inst "user_email" = some (.jStr e)) ∧
       (row.user_email = none → opt = false →
         alookupJ inst "user_email" = some (.jStr EMAIL_PLACEHOLDER))) := by
  intro m row now raw inst sc opt hf hsc hraw ha
  have hhf : hasField m "user_email" = true := by
    unfold hasField
    rw [hf]
    rfl
  have hndl : isDirectLikert m "user_email" = false := by
    apply isDirectLikert_of_scalar m "user_email" sc opt hf
    cases hsc with
    | inl h =>
      subst h
      intro hh
      cases hh
    | inr h =>
      subst h
      intro hh
      cases hh
  cases hc : coerceLlmOutput m raw with
  | error e =>
    simp only [analyse, hc] at ha
    exact Except.noConfusion ha
  | ok coerced =>
    simp only [analyse, hc] at ha
    have hco : alookupJ coerced "user_email" = none ∨
        alookupJ coerced "user_email" = some .jNull := by
      cases hraw with
      | inl h => exact Or.inl (coerce_keys_none m raw coerced "user_email" hc h)
      | inr h =>
        cases h with
        | inl h2 =>
          obtain ⟨w, hw, hlw⟩ := coerce_lookup m raw coerced "user_email" .jNull hc hhf h2
          rw [coerceEntry_plain m "user_email" .jNull hndl (by decide) (by decide)] at hw
          rw [blankToNone_of_scalar m "user_email" sc opt hf .jNull] at hw
          injection hw with hw2
          rw [← hw2] at hlw
          exact Or.inr hlw
        | inr h2 =>
          obtain ⟨s, hls, hbs⟩ := h2
          obtain ⟨w, hw, hlw⟩ := coerce_lookup m raw coerced "user_email" (.jStr s) hc hhf hls
          rw [coerceEntry_blankStr m "user_email" s hbs] at hw
          injection hw with hw2
          rw [← hw2] at hlw
          exact Or.inr hlw
    refine ⟨?_, ?_⟩
    · intro e hrow
      have hd1 : alookupJ (tier1Data m row now coerced) "user_email" = some (.jStr e) :=
        tier1_email_fromRow m row now coerced e hrow hco
      cases hv1 : validateFields m (tier1Data m row now coerced) with
      | some i1 =>
        simp only [hv1] at ha
        injection ha with hi
        subst hi
        exact validateFields_scalar_strval m _ _ "user_email" sc opt e hv1 hf hsc hd1
      | none =>
        simp only [hv1] at ha
        have hd2 : alookupJ (tier2Data m row now (tier1Data m row now coerced)) "user_email" =
            some (.jStr e) :=
          tier2_email m row now _ e hhf hd1
        cases hv2 : validateFields m (tier2Data m row now (tier1Data m row now coerced)) with
        | some i2 =>
          simp only [hv2] at ha
          injection ha with hi
          subst hi
          exact validateFields_scalar_strval m _ _ "user_email" sc opt e hv2 hf hsc hd2
        | none =>
          simp only [hv2] at ha
          have hd3 : alookupJ (minimalData m row now) "user_email" = some (.jStr e) := by
            have hh := minimal_email m row now
            have hrv : rowEmailVal row = .jStr e := by simp [rowEmailVal, hrow]
            rw [hrv] at hh
            exact hh
          cases hv3 : validateFields m (minimalData m row now) with
          | some i3 =>
            simp only [hv3] at ha
            injection ha with hi
            subst hi
            exact validateFields_scalar_strval m _ _ "user_email" sc opt e hv3 hf hsc hd3
          | none =>
            simp only [hv3] at ha
            exact Except.noConfusion ha
    · intro hrow hopt
      subst hopt
      have hd1 : alookupJ (tier1Data m row now coerced) "user_email" =
          some (.jStr EMAIL_PLACEHOLDER) :=
        tier1_email_placeholder m row now coerced sc hrow hf hco
      cases hv1 : validateFields m (tier1Data m row now coerced) with
      | some i1 =>
        simp only [hv1] at ha
        injection ha with hi
        subst hi
        exact validateFields_scalar_strval m _ _ "user_email" sc false EMAIL_PLACEHOLDER
          hv1 hf hsc hd1
      | none =>
        simp only [hv1] at ha
        have hd2 : alookupJ (tier2Data m row now (tier1Data m row now coerced)) "user_email" =
            some (.jStr EMAIL_PLACEHOLDER) :=
          tier2_email m row now _ EMAIL_PLACEHOLDER hhf hd1
        cases hv2 : validateFields m (tier2Data m row now (tier1Data m row now coerced)) with
        | some i2 =>
          simp only [hv2] at ha
          injection ha with hi
          subst hi
          exact validateFields_scalar_strval m _ _ "user_email" sc false EMAIL_PLACEHOLDER
            hv2 hf hsc hd2
        | none =>
          simp only [hv2] at ha
          cases hv3 : validateFields m (minimalData m row now) with
          | some i3 =>
            simp only [hv3] at ha
            injection ha with hi
            subst hi
            obtain ⟨w, hw, hiw⟩ :=
              validateFields_ok_scalar m _ _ "user_email" sc false hv3 hf
            rw [minimal_email m row now] at hw
            have hrv : rowEmailVal row = .jNaN := by simp [rowEmailVal, hrow]
            rw [hrv] at hw
            cases hsc with
            | inl h =>
              subst h
              exact Option.noConfusion hw
            | inr h =>
              subst h
              exact Option.noConfusion hw
          | none =>
            simp only [hv3] at ha
            exact Except.noConfusion ha

/-- Claim C9, witness: with a silent oracle, the row with an identifier
yields that identifier, and the row with a missing cell yields the
placeholder under the required text field of the model. -/
theorem c9_subject_identifier_backfill_witness :
    alookupJ [("chat_id", JValue.jInt 1), ("user_email", JValue.jStr "bob@x.y")]
      "user_email" = some (.jStr "bob@x.y") ∧
    alookupJ [("chat_id", JValue.jInt 2), ("user_email", JValue.jStr EMAIL_PLACEHOLDER)]
      "user_email" = some (.jStr EMAIL_PLACEHOLDER) := by
  constructor
  · exact (c9_subject_identifier_backfill c9Model c9Row1 0 []
      [("chat_id", JValue.jInt 1), ("user_email", JValue.jStr "bob@x.y")] .pStr false
      rfl (Or.inl rfl) (Or.inl rfl) (by rfl)).1 "bob@x.y" rfl
  · exact (c9_subject_identifier_backfill c9Model c9Row2 0 []
      [("chat_id", JValue.jInt 2), ("user_email", JValue.jStr EMAIL_PLACEHOLDER)] .pStr false
      rfl (Or.inl rfl) (Or.inl rfl) (by rfl)).2 rfl rfl

/-- Validation of a model walk succeeds on any data that binds the
conversation identifier to the row integer, the subject identifier to the
raw row cell, the timestamp (when declared) to the current time, and every
other declared name to nothing or None, provided the per-field minimal
conditions hold. -/
theorem validateFields_minimal_aux : ∀ (m2 : RModel) (row : InputRow) (now : Nat)
    (d : List (String × JValue)),
    minimalFieldsOk row m2 = true →
    alookupJ d "chat_id" = some (.jInt row.chat_id) →
    alookupJ d "user_email" = some (rowEmailVal row) →
    (hasField m2 "extracted_at" = true → alookupJ d "extracted_at" = some (.jTime now)) →
    (∀ n, n ∈ fieldNames m2 → n ≠ "chat_id" → n ≠ "user_email" → n ≠ "extracted_at" →
      alookupJ d n = none ∨ alookupJ d n = some .jNull) →
    (validateFields m2 d).isSome = true := by
  intro m2
  induction m2 with
  | nil => intro row now d _ _ _ _ _; rfl
  | scalar n ty opt rest ih =>
    intro row now d hok hc he hx ho
    simp only [minimalFieldsOk, Bool.and_eq_true] at hok
    obtain ⟨h1, h2⟩ := hok
    have hrest : (validateFields rest d).isSome = true := by
      apply ih row now d h2 hc he
      · intro hh
        apply hx
        unfold hasField findField
        cases hb : (n == "extracted_at") with
        | true => simp [hb]
        | false => simpa [hb, hasField] using hh
      · intro n2 hmem hn1 hn2 hn3
        exact ho n2 (List.mem_cons_of_mem n hmem) hn1 hn2 hn3
    have hhead : ∃ w, validateScalarField ty opt (alookupJ d n) = some w := by
      by_cases hcn : n = "chat_id"
      · subst hcn
        have hb : (("chat_id" : String) == "chat_id") = true := by decide
        simp only [hb, if_true, beq_iff_eq] at h1
        subst h1
        rw [hc]
        exact ⟨.jInt row.chat_id, by cases opt <;> rfl⟩
      · have hb1 : (n == "chat_id") = false := beq_eq_false_iff_ne.mpr hcn
        by_cases hen : n = "user_email"
        · subst hen
          have hb : (("user_email" : String) == "user_email") = true := by decide
          simp only [hb1, Bool.false_eq_true, if_false, hb, if_true] at h1
          rw [he]
          cases hre : row.user_email with
          | none =>
            rw [hre] at h1
            cases ty <;> cases h1
          | some e =>
            rw [hre] at h1
            have hrv : rowEmailVal row = .jStr e := by simp [rowEmailVal, hre]
            rw [hrv]
            cases ty with
            | pStr => exact ⟨.jStr e, by cases opt <;> rfl⟩
            | pEmail =>
              refine ⟨.jStr e, ?_⟩
              have hvs : validateScalarField .pEmail opt (some (.jStr e)) =
                  validateScalar .pEmail (.jStr e) := by cases opt <;> rfl
              rw [hvs]
              show (if emailOk e = true then some (JValue.jStr e) else none) = some (.jStr e)
              have h1e : emailOk e = true := h1
              rw [h1e]
              simp
            | pAny => cases h1
            | pOther nm => cases h1
            | pInt => cases h1
            | pBool => cases h1
            | pFloat => cases h1
            | pDatetime => cases h1
            | pLikert => cases h1
        · have hb2 : (n == "user_email") = false := beq_eq_false_iff_ne.mpr hen
          by_cases hxn : n = "extracted_at"
          · subst hxn
            have hb : (("extracted_at" : String) == "extracted_at") = true := by decide
            simp only [hb1, hb2, Bool.false_eq_true, if_false, hb, if_true, beq_iff_eq] at h1
            subst h1
            have hxv : alookupJ d "extracted_at" = some (.jTime now) := by
              apply hx
              unfold hasField findField
              simp
            rw [hxv]
            exact ⟨.jTime now, by cases opt <;> rfl⟩
          · have hb3 : (n == "extracted_at") = false := beq_eq_false_iff_ne.mpr hxn
            simp only [hb1, hb2, hb3, Bool.false_eq_true, if_false] at h1
            subst h1
            cases ho n (List.mem_cons_self n (fieldNames rest)) hcn hen hxn with
            | inl hl => rw [hl]; exact ⟨.jNull, rfl⟩
            | inr hl => rw [hl]; exact ⟨.jNull, rfl⟩
    obtain ⟨w, hw⟩ := hhead
    cases hr : validateFields rest d with
    | none => rw [hr] at hrest; cases hrest
    | some r =>
      simp only [validateFields, hw, hr]
      rfl
  | nested n sub opt rest ihs ih =>
    intro row now d hok hc he hx ho
    simp only [minimalFieldsOk, Bool.and_eq_true] at hok
    obtain ⟨⟨⟨⟨hn1, hn2⟩, hn3⟩, hopt⟩, h2⟩ := hok
    have hne1 : n ≠ "chat_id" := by simpa using hn1
    have hne2 : n ≠ "user_email" := by simpa using hn2
    have hne3 : n ≠ "extracted_at" := by simpa using hn3
    subst hopt
    have hrest : (validateFields rest d).isSome = true := by
      apply ih row now d h2 hc he
      · intro hh
        apply hx
        unfold hasField findField
        cases hb : (n == "extracted_at") with
        | true => simp [hb]
        | false => simpa [hb, hasField] using hh
      · intro n2 hmem hh1 hh2 hh3
        exact ho n2 (List.mem_cons_of_mem n hmem) hh1 hh2 hh3
    cases hr : validateFields rest d with
    | none => rw [hr] at hrest; cases hrest
    | some r =>
      cases ho n (List.mem_cons_self n (fieldNames rest)) hne1 hne2 hne3 with
      | inl hl => simp [validateFields, hl, hr]
      | inr hl => simp [validateFields, hl, hr]
  | fref n ref opt rest ih =>
    intro row now d hok hc he hx ho
    simp only [minimalFieldsOk, Bool.and_eq_true] at hok
    obtain ⟨⟨⟨hn1, hn2⟩, hn3⟩, h2⟩ := hok
    have hne1 : n ≠ "chat_id" := by simpa using hn1
    have hne2 : n ≠ "user_email" := by simpa using hn2
    have hne3 : n ≠ "extracted_at" := by simpa using hn3
    have hrest : (validateFields rest d).isSome = true := by
      apply ih row now d h2 hc he
      · intro hh
        apply hx
        unfold hasField findField
        cases hb : (n == "extracted_at") with
        | true => simp [hb]
        | false => simpa [hb, hasField] using hh
      · intro n2 hmem hh1 hh2 hh3
        exact ho n2 (List.mem_cons_of_mem n hmem) hh1 hh2 hh3
    cases hr : validateFields rest d with
    | none => rw [hr] at hrest; cases hrest
    | some r =>
      cases ho n (List.mem_cons_self n (fieldNames rest)) hne1 hne2 hne3 with
      | inl hl => simp [validateFields, hl, hr]
      | inr hl => simp [validateFields, hl, hr, JValue.isNone]

/-! ## Claim C1: tier-3 minimal record validation -/

/-- Claim C1, counterexample.  A model with a required non-identifier field
(consent as a required bool, exactly as the config synthesizes it) makes
the tier-3 minimal record bind consent to None, which the required bool
annotation rejects: the final model_validate raises out of the extract
function and the ladder does not absorb it. -/
theorem c1_tier3_can_fail :
    createDynamicModel "M" c1Cfg = .ok c1Model ∧
    validateFields c1Model (minimalData c1Model c1Row 0) = none ∧
    analyse c1Model c1Row 0 [] = .error .ladderFailure := by
  exact ⟨rfl, rfl, rfl⟩

/-- Claim C1, amended.  Under the per-field minimal conditions (integer
conversation identifier, text or email subject identifier with an
acceptable row value, datetime timestamp, every other declared field
optional), the tier-3 minimal record always validates and the ladder never
reports failure, whatever the oracle payload was. -/
theorem c1_tier3_minimal_validates :
    ∀ (m : RModel) (row : InputRow) (now : Nat),
      minimalFieldsOk row m = true →
      (validateFields m (minimalData m row now)).isSome = true ∧
      ∀ raw, analyse m row now raw ≠ .error .ladderFailure := by
  intro m row now hok
  have hmain : (validateFields m (minimalData m row now)).isSome = true := by
    apply validateFields_minimal_aux m row now (minimalData m row now) hok
    · exact minimal_chat m row now
    · exact minimal_email m row now
    · intro hh
      exact minimal_extracted m row now hh
    · intro n hmem hn1 hn2 hn3
      exact Or.inr (minimal_other m row now n hn1 hn2 hn3 ((hasField_iff_mem m n).mpr hmem))
  refine ⟨hmain, ?_⟩
  intro raw ha
  cases hc : coerceLlmOutput m raw with
  | error e =>
    simp only [analyse, hc] at ha
    injection ha with h2
    exact AnalyseErr.noConfusion h2
  | ok coerced =>
    simp only [analyse, hc] at ha
    cases hv1 : validateFields m (tier1Data m row now coerced) with
    | some i1 => simp only [hv1] at ha; exact Except.noConfusion ha
    | none =>
      simp only [hv1] at ha
      cases hv2 : validateFields m (tier2Data m row now (tier1Data m row now coerced)) with
      | some i2 => simp only [hv2] at ha; exact Except.noConfusion ha
      | none =>
        simp only [hv2] at ha
        cases hv3 : validateFields m (minimalData m row now) with
        | some i3 => simp only [hv3] at ha; exact Except.noConfusion ha
        | none => rw [hv3] at hmain; cases hmain

/-- Claim C1, witness: the identifier-only model with an optional subject
identifier satisfies the minimal conditions on a row carrying both
identifiers, so its ladder never fails. -/
theorem c1_tier3_minimal_validates_witness :
    (validateFields c4Model (minimalData c4Model c1Row 0)).isSome = true ∧
    analyse c4Model c1Row 0 [] ≠ .error .ladderFailure := by
  have h := c1_tier3_minimal_validates c4Model c1Row 0 (by rfl)
  exact ⟨h.1, h.2 []⟩

end Adhlal
